import Mathlib

/-!
# jsPDF document assembly

A shallow embedding of `src/jspdf.js`: the closure variables of the `jsPDF`
constructor become the fields of `Doc`, every private function becomes a
function on `Doc`, and a JavaScript exception becomes an `Except.error`.

Numbers that the program only computes with and prints (coordinates, the scale
factor, colours, sizes) have an abstract type `ν`; the arithmetic on them, the
conversion of a value to a number, and the external formatting routine
`sprintf` are the fields of `Lib`.  Counters, lengths and offsets are natural
numbers.
-/

namespace JsPDF

/-! ## Strings -/

/-- A JavaScript string, as its sequence of UTF-16 code units; `length` and
indexing count code units, as `String.prototype.length` does. -/
abbrev JSString := List Nat

/-- The code units of a string literal of the source (all of them are ASCII). -/
def lit (s : String) : JSString := s.toList.map Char.toNat

/-- Conversion of a non-negative integer to a string (`'' + n`): its decimal digits. -/
def natStr (n : Nat) : JSString := lit (Nat.repr n)

/-- A value that can sit in `pageWidth` / `pageHeight` or in a format array. -/
inductive JSVal (ν : Type) where
  | undefined
  | num (x : ν)
  | str (s : JSString)
deriving DecidableEq

/-- What the program takes from outside `src/`: number arithmetic, conversion
to a number, number to string conversion and the directives of `sprintf`. -/
structure Lib (ν : Type) where
  /-- the value of a decimal literal of the source: `dec m e` is `m / 10 ^ e` -/
  dec : Nat → Nat → ν
  mul : ν → ν → ν
  div : ν → ν → ν
  add : ν → ν → ν
  sub : ν → ν → ν
  neg : ν → ν
  /-- `Math.SQRT2` -/
  sqrt2 : ν
  nan : ν
  /-- conversion of a string to a number -/
  ofString : JSString → ν
  /-- `x === 0` -/
  isZero : ν → Bool
  /-- conversion of a number to a string -/
  toStr : ν → JSString
  /-- the directive `%.2f` -/
  f2 : ν → JSString
  /-- the directive `%.3f` -/
  f3 : ν → JSString
  /-- the directive `%010d`, applied to `offsets[i]` (which may be undefined) -/
  d10 : Option Nat → JSString
  /-- the directive `%02d` -/
  d02 : Nat → JSString

/-- Conversion of a value to a number, as the arithmetic operators apply it. -/
def toNum {ν : Type} (L : Lib ν) : JSVal ν → ν
  | .undefined => L.nan
  | .num x => x
  | .str s => L.ofString s

/-! ## Document state -/

/-- An entry of the `fonts` array. -/
structure Font where
  key : JSString
  number : Nat
  name : JSString
  fontName : JSString
  type : JSString
deriving DecidableEq

/-- The `documentProperties` object: the five entries `putInfo` reads. -/
structure Props where
  title : Option JSString
  subject : Option JSString
  author : Option JSString
  keywords : Option JSString
  creator : Option JSString
deriving DecidableEq

/-- The reading of the clock that `new Date()` takes in `putInfo`
(`month` is `getMonth()`, counted from 0). -/
structure Clock where
  year : Nat
  month : Nat
  day : Nat
  hour : Nat
  minute : Nat
  second : Nat

/-- A JavaScript array with holes, read by index. -/
abbrev Sparse (α : Type) := Nat → Option α

/-- The assignment `a[i] = v`. -/
def setAt {α : Type} (a : Sparse α) (i : Nat) (v : α) : Sparse α :=
  fun j => if j = i then some v else a j

/-- The private variables of a document. -/
structure Doc (ν : Type) where
  buffer : JSString
  textColor : JSString
  drawColor : JSString
  page : Nat
  objectNumber : Nat
  state : Nat
  pages : Sparse (List JSString)
  offsets : Sparse Nat
  fonts : List Font
  lineWidth : ν
  pageHeight : JSVal ν
  pageWidth : JSVal ν
  k : ν
  documentProperties : Props
  fontSize : ν
  fontName : JSString
  fontType : JSString

/-- The ways a call can fail: the three strings the constructor throws, and the
`TypeError` of a method call on `undefined`. -/
inductive Err where
  | invalidUnit
  | invalidFormat
  | invalidOrientation
  | typeError
deriving DecidableEq

variable {ν : Type}

/-! ## Private functions -/

/-- `out`: in state 2 the line is pushed on the current page, otherwise it is
appended to the buffer with a newline. -/
def out (d : Doc ν) (string : JSString) : Except Err (Doc ν) :=
  if d.state = 2 then
    match d.pages d.page with
    | some ops => .ok { d with pages := setAt d.pages d.page (ops ++ [string]) }
    | none => .error .typeError
  else
    .ok { d with buffer := d.buffer ++ (string ++ lit "\n") }

/-- `newObject`. -/
def newObject (d : Doc ν) : Except Err (Doc ν) :=
  let d := { d with objectNumber := d.objectNumber + 1 }
  let d := { d with offsets := setAt d.offsets d.objectNumber d.buffer.length }
  out d (natStr d.objectNumber ++ lit " 0 obj")

/-- `putHeader`, with `pdfVersion = '1.3'`. -/
def putHeader (d : Doc ν) : Except Err (Doc ν) :=
  out d (lit "%PDF-" ++ lit "1.3")

/-- `putStream`. -/
def putStream (d : Doc ν) (str : JSString) : Except Err (Doc ν) := do
  let d ← out d (lit "stream")
  let d ← out d str
  out d (lit "endstream")

/-- The body of the first loop of `putPages`, for page `n`. -/
def putPage (d : Doc ν) (n : Nat) : Except Err (Doc ν) := do
  let d ← newObject d
  let d ← out d (lit "<</Type /Page")
  let d ← out d (lit "/Parent 1 0 R")
  let d ← out d (lit "/Resources 2 0 R")
  let d ← out d (lit "/Contents " ++ natStr (d.objectNumber + 1) ++ lit " 0 R>>")
  let d ← out d (lit "endobj")
  match d.pages n with
  | none => .error .typeError
  | some ops =>
    let p := (lit "\n").intercalate ops
    let d ← newObject d
    let d ← out d (lit "<</Length " ++ natStr p.length ++ lit ">>")
    let d ← putStream d p
    out d (lit "endobj")

/-- The second loop of `putPages`: the text of the `/Kids` line. -/
def kidsLine (page : Nat) : JSString :=
  (List.range page).foldl (fun kids i => kids ++ (natStr (3 + 2 * i) ++ lit " 0 R ")) (lit "/Kids [")

/-- `putPages`.  The loop bound `page` is not assigned while the loops run. -/
def putPages (L : Lib ν) (d : Doc ν) : Except Err (Doc ν) := do
  let wPt := L.mul (toNum L d.pageWidth) d.k
  let hPt := L.mul (toNum L d.pageHeight) d.k
  let d ← (List.range' 1 d.page).foldlM putPage d
  let d := { d with offsets := setAt d.offsets 1 d.buffer.length }
  let d ← out d (lit "1 0 obj")
  let d ← out d (lit "<</Type /Pages")
  let d ← out d (kidsLine d.page ++ lit "]")
  let d ← out d (lit "/Count " ++ natStr d.page)
  let d ← out d (lit "/MediaBox [0 0 " ++ L.f2 wPt ++ lit " " ++ L.f2 hPt ++ lit "]")
  let d ← out d (lit ">>")
  out d (lit "endobj")

/-- `putFont`; the assignment `font.number = objectNumber` is returned as the
updated array entry. -/
def putFont (d : Doc ν) (font : Font) : Except Err (Font × Doc ν) := do
  let d ← newObject d
  let font := { font with number := d.objectNumber }
  let d ← out d (lit "<</BaseFont/" ++ font.name ++ lit "/Type/Font")
  let d ← out d (lit "/Subtype/Type1>>")
  let d ← out d (lit "endobj")
  .ok (font, d)

/-- The loop of `putFonts` over the entries from some index on. -/
def putFontsFrom : List Font → Doc ν → Except Err (List Font × Doc ν)
  | [], d => .ok ([], d)
  | font :: rest, d => do
    let (font, d) ← putFont d font
    let (rest, d) ← putFontsFrom rest d
    .ok (font :: rest, d)

/-- `putFonts`: every entry of `fonts` is written and gets its object number. -/
def putFonts (d : Doc ν) : Except Err (Doc ν) := do
  let (fonts, d) ← putFontsFrom d.fonts d
  .ok { d with fonts := fonts }

/-- `putImages` does nothing. -/
def putImages (d : Doc ν) : Except Err (Doc ν) := .ok d

/-- `putXobjectDict` does nothing. -/
def putXobjectDict (d : Doc ν) : Except Err (Doc ν) := .ok d

/-- `putResourceDictionary`. -/
def putResourceDictionary (d : Doc ν) : Except Err (Doc ν) := do
  let d ← out d (lit "/ProcSet [/PDF /Text /ImageB /ImageC /ImageI]")
  let d ← out d (lit "/Font <<")
  let d ← d.fonts.foldlM
    (fun d font => out d (lit "/" ++ font.key ++ lit " " ++ natStr font.number ++ lit " 0 R")) d
  let d ← out d (lit ">>")
  let d ← out d (lit "/XObject <<")
  let d ← putXobjectDict d
  out d (lit ">>")

/-- `putResources`. -/
def putResources (d : Doc ν) : Except Err (Doc ν) := do
  let d ← putFonts d
  let d ← putImages d
  let d := { d with offsets := setAt d.offsets 2 d.buffer.length }
  let d ← out d (lit "2 0 obj")
  let d ← out d (lit "<<")
  let d ← putResourceDictionary d
  let d ← out d (lit ">>")
  out d (lit "endobj")

/-- Global replacement of every occurrence of one code unit by a string
(`text.replace(/c/g, r)` for a one-character pattern). -/
def replaceAll (c : Nat) (r : JSString) (text : JSString) : JSString :=
  text.flatMap (fun x => if x = c then r else [x])

/-- `pdfEscape`: three replacements in sequence, the backslash first. -/
def pdfEscape (text : JSString) : JSString :=
  replaceAll 41 (lit "\\)") (replaceAll 40 (lit "\\(") (replaceAll 92 (lit "\\\\") text))

/-- One optional entry of the Info dictionary. -/
def putInfoEntry (d : Doc ν) (key : JSString) (value : Option JSString) : Except Err (Doc ν) :=
  match value with
  | some v => out d (key ++ pdfEscape v ++ lit ")")
  | none => .ok d

/-- `putInfo`, with `version = '20120220'`; `now` is the value of `new Date()`. -/
def putInfo (L : Lib ν) (now : Clock) (d : Doc ν) : Except Err (Doc ν) := do
  let d ← out d (lit "/Producer (jsPDF " ++ lit "20120220" ++ lit ")")
  let d ← putInfoEntry d (lit "/Title (") d.documentProperties.title
  let d ← putInfoEntry d (lit "/Subject (") d.documentProperties.subject
  let d ← putInfoEntry d (lit "/Author (") d.documentProperties.author
  let d ← putInfoEntry d (lit "/Keywords (") d.documentProperties.keywords
  let d ← putInfoEntry d (lit "/Creator (") d.documentProperties.creator
  out d (lit "/CreationDate (D:" ++
    (L.d02 now.year ++ L.d02 (now.month + 1) ++ L.d02 now.day ++
      L.d02 now.hour ++ L.d02 now.minute ++ L.d02 now.second) ++ lit ")")

/-- `putCatalog`. -/
def putCatalog (d : Doc ν) : Except Err (Doc ν) := do
  let d ← out d (lit "/Type /Catalog")
  let d ← out d (lit "/Pages 1 0 R")
  let d ← out d (lit "/OpenAction [3 0 R /FitH null]")
  out d (lit "/PageLayout /OneColumn")

/-- `putTrailer`. -/
def putTrailer (d : Doc ν) : Except Err (Doc ν) := do
  let d ← out d (lit "/Size " ++ natStr (d.objectNumber + 1))
  let d ← out d (lit "/Root " ++ natStr d.objectNumber ++ lit " 0 R")
  out d (lit "/Info " ++ natStr (d.objectNumber - 1) ++ lit " 0 R")

/-- `buildDocument`: returns the document after the call and the string returned. -/
def buildDocument (L : Lib ν) (now : Clock) (d : Doc ν) : Except Err (Doc ν × JSString) := do
  let d := { d with state := 1 }
  let d ← putHeader d
  let d ← putPages L d
  let d ← putResources d
  let d ← newObject d
  let d ← out d (lit "<<")
  let d ← putInfo L now d
  let d ← out d (lit ">>")
  let d ← out d (lit "endobj")
  let d ← newObject d
  let d ← out d (lit "<<")
  let d ← putCatalog d
  let d ← out d (lit ">>")
  let d ← out d (lit "endobj")
  let o := d.buffer.length
  let d ← out d (lit "xref")
  let d ← out d (lit "0 " ++ natStr (d.objectNumber + 1))
  let d ← out d (lit "0000000000 65535 f ")
  let d ← (List.range' 1 d.objectNumber).foldlM
    (fun d i => out d (L.d10 (d.offsets i) ++ lit " 00000 n ")) d
  let d ← out d (lit "trailer")
  let d ← out d (lit "<<")
  let d ← putTrailer d
  let d ← out d (lit ">>")
  let d ← out d (lit "startxref")
  let d ← out d (natStr o)
  let d ← out d (lit "%%EOF")
  let d := { d with state := 3 }
  .ok (d, d.buffer)

/-- `beginPage`. -/
def beginPage (d : Doc ν) : Doc ν :=
  let d := { d with page := d.page + 1 }
  let d := { d with state := 2 }
  { d with pages := setAt d.pages d.page [] }

/-- The private `_addPage`. -/
def addPage' (L : Lib ν) (d : Doc ν) : Except Err (Doc ν) := do
  let d := beginPage d
  let d ← out d (L.f2 (L.mul d.lineWidth d.k) ++ lit " w")
  out d d.drawColor

/-- `getFont`: the key of the first entry with the current family and style,
`F1` when there is none. -/
def getFont (d : Doc ν) : JSString :=
  match d.fonts.find? (fun f => f.fontName = d.fontName ∧ f.type = d.fontType) with
  | some f => f.key
  | none => lit "F1"

/-- `addFont`. -/
def addFont (d : Doc ν) (name fontName fontType : JSString) : Doc ν :=
  { d with fonts := d.fonts ++
      [{ key := lit "F" ++ natStr (d.fonts.length + 1), number := d.objectNumber,
         name := name, fontName := fontName, type := fontType }] }

/-- `addFonts`. -/
def addFonts (d : Doc ν) : Doc ν :=
  let d := addFont d (lit "Helvetica") (lit "helvetica") (lit "normal")
  let d := addFont d (lit "Helvetica-Bold") (lit "helvetica") (lit "bold")
  let d := addFont d (lit "Helvetica-Oblique") (lit "helvetica") (lit "italic")
  let d := addFont d (lit "Helvetica-BoldOblique") (lit "helvetica") (lit "bolditalic")
  let d := addFont d (lit "Courier") (lit "courier") (lit "normal")
  let d := addFont d (lit "Courier-Bold") (lit "courier") (lit "bold")
  let d := addFont d (lit "Courier-Oblique") (lit "courier") (lit "italic")
  let d := addFont d (lit "Courier-BoldOblique") (lit "courier") (lit "bolditalic")
  let d := addFont d (lit "Times-Roman") (lit "times") (lit "normal")
  let d := addFont d (lit "Times-Bold") (lit "times") (lit "bold")
  let d := addFont d (lit "Times-Italic") (lit "times") (lit "italic")
  addFont d (lit "Times-BoldItalic") (lit "times") (lit "bolditalic")

/-! ## The constructor -/

/-- `String.prototype.toLowerCase`.  The letters `A`-`Z` are mapped to `a`-`z`;
U+212A and U+0130, the two other characters whose lower case holds a letter of
`a`-`z`, are mapped as JavaScript maps them.  Every other code unit is kept: its
lower case is outside ASCII as well, and the program only compares the result
with ASCII names and stores it when it is equal to one. -/
def toLowerCase (s : JSString) : JSString :=
  s.flatMap (fun c =>
    if 65 ≤ c ∧ c ≤ 90 then [c + 32]
    else if c = 0x212A then [107]
    else if c = 0x130 then [105, 0x307]
    else [c])

/-- The `format` argument: a string or an array. -/
inductive FormatArg (ν : Type) where
  | str (s : JSString)
  | arr (xs : List (JSVal ν))

/-- Conversion of an array element to a string, as `Array.prototype.join` does it. -/
def elemToString (L : Lib ν) : JSVal ν → JSString
  | .undefined => []
  | .num x => L.toStr x
  | .str s => s

/-- `format.toString()`. -/
def FormatArg.toString (L : Lib ν) : FormatArg ν → JSString
  | .str s => s
  | .arr xs => (lit ",").intercalate (xs.map (elemToString L))

/-- `format[i]`: reading an index of a string or an array never throws. -/
def FormatArg.index : FormatArg ν → Nat → JSVal ν
  | .str s, i => match s.get? i with
    | some c => .str [c]
    | none => .undefined
  | .arr xs, i => (xs.get? i).getD .undefined

/-- The table `pageFormats`, read as `name in pageFormats` and then
`pageFormats[name][0]`, `pageFormats[name][1]`.  The operator `in` also finds
the two lower-case property names every object inherits; their values have no
entry 0 or 1. -/
def pageFormats (L : Lib ν) (name : JSString) : Option (JSVal ν × JSVal ν) :=
  if name = lit "a3" then some (.num (L.dec 84189 2), .num (L.dec 119055 2))
  else if name = lit "a4" then some (.num (L.dec 59528 2), .num (L.dec 84189 2))
  else if name = lit "a5" then some (.num (L.dec 42094 2), .num (L.dec 59528 2))
  else if name = lit "letter" then some (.num (L.dec 612 0), .num (L.dec 792 0))
  else if name = lit "legal" then some (.num (L.dec 612 0), .num (L.dec 1008 0))
  else if name = lit "constructor" ∨ name = lit "__proto__" then some (.undefined, .undefined)
  else none

/-- The unit initialisation: the scale factor `k` of a unit. -/
def unitScale (L : Lib ν) (unit : JSString) : Except Err ν :=
  if unit = lit "pt" then .ok (L.dec 1 0)
  else if unit = lit "mm" then .ok (L.div (L.dec 72 0) (L.dec 254 1))
  else if unit = lit "cm" then .ok (L.div (L.dec 72 0) (L.dec 254 2))
  else if unit = lit "in" then .ok (L.dec 72 0)
  else .error .invalidUnit

/-- The format initialisation: `(pageWidth, pageHeight)` before the
orientation is applied.  The reads in the `try` block throw for no string and
no array, so the `catch` branch is not taken. -/
def formatSize (L : Lib ν) (format : FormatArg ν) (k : ν) : JSVal ν × JSVal ν :=
  let format_as_string := toLowerCase (format.toString L)
  match pageFormats L format_as_string with
  | some (w, h) => (.num (L.div (toNum L w) k), .num (L.div (toNum L h) k))
  | none => (format.index 0, format.index 1)

/-- The orientation initialisation: `(pageWidth, pageHeight)` once the
orientation is applied. -/
def orient (orientation : JSString) (size : JSVal ν × JSVal ν) : Except Err (JSVal ν × JSVal ν) :=
  let orientation := toLowerCase orientation
  if orientation = lit "p" ∨ orientation = lit "portrait" then .ok size
  else if orientation = lit "l" ∨ orientation = lit "landscape" then .ok (size.2, size.1)
  else .error .invalidOrientation

/-- The constructor `jsPDF(orientation, unit, format)`; an omitted argument is `none`. -/
def jsPDF (L : Lib ν) (orientation unit : Option JSString) (format : Option (FormatArg ν)) :
    Except Err (Doc ν) := do
  let orientation := orientation.getD (lit "p")
  let unit := unit.getD (lit "mm")
  let format := format.getD (.str (lit "a4"))
  let k ← unitScale L unit
  let size := formatSize L format k
  let size ← orient orientation size
  let d : Doc ν :=
    { buffer := lit "", textColor := lit "0 g", drawColor := lit "0 G", page := 0,
      objectNumber := 2, state := 0, pages := fun _ => none, offsets := fun _ => none,
      fonts := [], lineWidth := L.dec 200025 6, pageHeight := size.2, pageWidth := size.1,
      k := k, documentProperties := ⟨none, none, none, none, none⟩, fontSize := L.dec 16 0,
      fontName := lit "helvetica", fontType := lit "normal" }
  let d := addFonts d
  addPage' L d

/-! ## The public methods -/

/-- The `text` argument of `text`: a string or an array of strings. -/
inductive TextArg where
  | str (s : JSString)
  | lines (a : List JSString)

/-- An omitted number argument converts to `NaN` in arithmetic. -/
def optNum (L : Lib ν) : Option ν → ν
  | some x => x
  | none => L.nan

/-- `x === 0` for an argument that may be omitted. -/
def optIsZero (L : Lib ν) : Option ν → Bool
  | some x => L.isZero x
  | none => false

/-- The method `text`. -/
def text (L : Lib ν) (d : Doc ν) (x y : ν) (t : TextArg) : Except Err (Doc ν) :=
  let str := match t with
    | .str s => pdfEscape s
    | .lines a => (lit ") Tj\nT* (").intercalate (a.map pdfEscape)
  out d (lit "BT\n/" ++
    getFont d ++ lit " " ++ L.toStr d.fontSize ++ lit " Tf\n" ++
    L.toStr d.fontSize ++ lit " TL\n" ++
    d.textColor ++
    (lit "\n" ++ L.f2 (L.mul x d.k) ++ lit " " ++
      L.f2 (L.mul (L.sub (toNum L d.pageHeight) y) d.k) ++ lit " Td\n(") ++
    str ++
    lit ") Tj\nET")

/-- The method `line`. -/
def line (L : Lib ν) (d : Doc ν) (x1 y1 x2 y2 : ν) : Except Err (Doc ν) :=
  let ph := toNum L d.pageHeight
  out d (L.f2 (L.mul x1 d.k) ++ lit " " ++ L.f2 (L.mul (L.sub ph y1) d.k) ++ lit " m " ++
    L.f2 (L.mul x2 d.k) ++ lit " " ++ L.f2 (L.mul (L.sub ph y2) d.k) ++ lit " l S")

/-- The method `rect`; `style` is `none` when omitted. -/
def rect (L : Lib ν) (d : Doc ν) (x y w h : ν) (style : Option JSString) : Except Err (Doc ν) :=
  let op :=
    if style = some (lit "F") then lit "f"
    else if style = some (lit "FD") ∨ style = some (lit "DF") then lit "B"
    else lit "S"
  out d (L.f2 (L.mul x d.k) ++ lit " " ++ L.f2 (L.mul (L.sub (toNum L d.pageHeight) y) d.k) ++
    lit " " ++ L.f2 (L.mul w d.k) ++ lit " " ++ L.f2 (L.mul (L.neg h) d.k) ++ lit " re " ++ op)

/-- The method `ellipse`. -/
def ellipse (L : Lib ν) (d : Doc ν) (x y rx ry : ν) (style : Option JSString) :
    Except Err (Doc ν) := do
  let op :=
    if style = some (lit "F") then lit "f"
    else if style = some (lit "FD") ∨ style = some (lit "DF") then lit "B"
    else lit "S"
  let c43 := L.mul (L.div (L.dec 4 0) (L.dec 3 0)) (L.sub L.sqrt2 (L.dec 1 0))
  let lx := L.mul c43 rx
  let ly := L.mul c43 ry
  let k := d.k
  let ph := toNum L d.pageHeight
  let X := fun (v : ν) => L.f2 (L.mul v k)
  let Y := fun (v : ν) => L.f2 (L.mul (L.sub ph v) k)
  let sp := lit " "
  let d ← out d (X (L.add x rx) ++ sp ++ Y y ++ lit " m " ++
    X (L.add x rx) ++ sp ++ Y (L.sub y ly) ++ sp ++
    X (L.add x lx) ++ sp ++ Y (L.sub y ry) ++ sp ++
    X x ++ sp ++ Y (L.sub y ry) ++ lit " c")
  let d ← out d (X (L.sub x lx) ++ sp ++ Y (L.sub y ry) ++ sp ++
    X (L.sub x rx) ++ sp ++ Y (L.sub y ly) ++ sp ++
    X (L.sub x rx) ++ sp ++ Y y ++ lit " c")
  let d ← out d (X (L.sub x rx) ++ sp ++ Y (L.add y ly) ++ sp ++
    X (L.sub x lx) ++ sp ++ Y (L.add y ry) ++ sp ++
    X x ++ sp ++ Y (L.add y ry) ++ lit " c")
  out d (X (L.add x lx) ++ sp ++ Y (L.add y ry) ++ sp ++
    X (L.add x rx) ++ sp ++ Y (L.add y ly) ++ sp ++
    X (L.add x rx) ++ sp ++ Y y ++ lit " c " ++ op)

/-- The method `circle`. -/
def circle (L : Lib ν) (d : Doc ν) (x y r : ν) (style : Option JSString) : Except Err (Doc ν) :=
  ellipse L d x y r r style

/-- The method `setProperties`. -/
def setProperties (d : Doc ν) (properties : Props) : Doc ν :=
  { d with documentProperties := properties }

/-- The method `setFontSize`. -/
def setFontSize (d : Doc ν) (size : ν) : Doc ν :=
  { d with fontSize := size }

/-- The method `setFont`. -/
def setFont (d : Doc ν) (name : JSString) : Doc ν :=
  let lower := toLowerCase name
  if lower = lit "helvetica" ∨ lower = lit "times" ∨ lower = lit "courier" then
    { d with fontName := lower }
  else d

/-- The method `setFontType`. -/
def setFontType (d : Doc ν) (type : JSString) : Doc ν :=
  let lower := toLowerCase type
  if lower = lit "normal" ∨ lower = lit "bold" ∨ lower = lit "italic" ∨
      lower = lit "bolditalic" then
    { d with fontType := lower }
  else d

/-- The method `setLineWidth`. -/
def setLineWidth (L : Lib ν) (d : Doc ν) (width : ν) : Except Err (Doc ν) :=
  out d (L.f2 (L.mul width d.k) ++ lit " w")

/-- The method `setDrawColor`; `g` and `b` are `none` when omitted. -/
def setDrawColor (L : Lib ν) (d : Doc ν) (r : ν) (g b : Option ν) : Except Err (Doc ν) :=
  let n255 := L.dec 255 0
  let color :=
    if (L.isZero r ∧ optIsZero L g ∧ optIsZero L b) ∨ g.isNone then
      L.f3 (L.div r n255) ++ lit " G"
    else
      L.f3 (L.div r n255) ++ lit " " ++ L.f3 (L.div (optNum L g) n255) ++ lit " " ++
        L.f3 (L.div (optNum L b) n255) ++ lit " RG"
  out d color

/-- The method `setFillColor`. -/
def setFillColor (L : Lib ν) (d : Doc ν) (r : ν) (g b : Option ν) : Except Err (Doc ν) :=
  let n255 := L.dec 255 0
  let color :=
    if (L.isZero r ∧ optIsZero L g ∧ optIsZero L b) ∨ g.isNone then
      L.f3 (L.div r n255) ++ lit " g"
    else
      L.f3 (L.div r n255) ++ lit " " ++ L.f3 (L.div (optNum L g) n255) ++ lit " " ++
        L.f3 (L.div (optNum L b) n255) ++ lit " rg"
  out d color

/-- The method `setTextColor`. -/
def setTextColor (L : Lib ν) (d : Doc ν) (r : ν) (g b : Option ν) : Doc ν :=
  let n255 := L.dec 255 0
  let color :=
    if (L.isZero r ∧ optIsZero L g ∧ optIsZero L b) ∨ g.isNone then
      L.f3 (L.div r n255) ++ lit " g"
    else
      L.f3 (L.div r n255) ++ lit " " ++ L.f3 (L.div (optNum L g) n255) ++ lit " " ++
        L.f3 (L.div (optNum L b) n255) ++ lit " rg"
  { d with textColor := color }

/-- The method `output()` called without a type: the string `buildDocument` returns. -/
def output (L : Lib ν) (now : Clock) (d : Doc ν) : Except Err (Doc ν × JSString) :=
  buildDocument L now d

/-- A call of a public method other than `output`. -/
inductive Call (ν : Type) where
  | addPage
  | text (x y : ν) (t : TextArg)
  | line (x1 y1 x2 y2 : ν)
  | rect (x y w h : ν) (style : Option JSString)
  | ellipse (x y rx ry : ν) (style : Option JSString)
  | circle (x y r : ν) (style : Option JSString)
  | setProperties (properties : Props)
  | addImage
  | setFontSize (size : ν)
  | setFont (name : JSString)
  | setFontType (type : JSString)
  | setLineWidth (width : ν)
  | setDrawColor (r : ν) (g b : Option ν)
  | setFillColor (r : ν) (g b : Option ν)
  | setTextColor (r : ν) (g b : Option ν)

/-- The effect of one call on the document. -/
def Call.apply (L : Lib ν) (d : Doc ν) : Call ν → Except Err (Doc ν)
  | .addPage => addPage' L d
  | .text x y t => JsPDF.text L d x y t
  | .line x1 y1 x2 y2 => JsPDF.line L d x1 y1 x2 y2
  | .rect x y w h style => JsPDF.rect L d x y w h style
  | .ellipse x y rx ry style => JsPDF.ellipse L d x y rx ry style
  | .circle x y r style => JsPDF.circle L d x y r style
  | .setProperties p => .ok (JsPDF.setProperties d p)
  | .addImage => .ok d
  | .setFontSize size => .ok (JsPDF.setFontSize d size)
  | .setFont name => .ok (JsPDF.setFont d name)
  | .setFontType type => .ok (JsPDF.setFontType d type)
  | .setLineWidth width => JsPDF.setLineWidth L d width
  | .setDrawColor r g b => JsPDF.setDrawColor L d r g b
  | .setFillColor r g b => JsPDF.setFillColor L d r g b
  | .setTextColor r g b => .ok (JsPDF.setTextColor L d r g b)

/-- A sequence of calls, made one after the other. -/
def run (L : Lib ν) (d : Doc ν) (calls : List (Call ν)) : Except Err (Doc ν) :=
  calls.foldlM (Call.apply L) d

/-! ## An executable instance of `Lib`

Exact fractions stand for the numbers, `none` for `NaN`.  The instance is what
the concrete examples below are evaluated with; the general theorems hold for
every `Lib`. -/

/-- A fraction `num / den` with `den > 0`. -/
structure Frac where
  num : Int
  den : Nat
deriving DecidableEq

/-- Left padding with zeros to a width. -/
def zeroPad (width : Nat) (s : JSString) : JSString :=
  List.replicate (width - s.length) 48 ++ s

/-- `Number.prototype.toFixed`, which `sprintf` uses for `%.<digits>f`: the
nearest decimal with `digits` fraction digits, the larger one on a tie, with
the sign in front. -/
def toFixed (digits : Nat) (q : Frac) : JSString :=
  let n := (q.num.natAbs * 10 ^ digits * 2 + q.den) / (2 * q.den)
  let body := natStr (n / 10 ^ digits) ++ lit "." ++ zeroPad digits (natStr (n % 10 ^ digits))
  if q.num < 0 then lit "-" ++ body else body

/-- Conversion of a fraction to a string: exact for an integer value; other
values are shown with six fraction digits. -/
def fracToStr (q : Frac) : JSString :=
  if q.num.natAbs % q.den = 0 then
    (if q.num < 0 then lit "-" else []) ++ natStr (q.num.natAbs / q.den)
  else toFixed 6 q

/-- The value of a string of decimal digits; `none` for any other string. -/
def parseDigits (s : JSString) : Option Frac :=
  if s ≠ [] ∧ s.all (fun c => 48 ≤ c ∧ c ≤ 57) then
    some ⟨(s.foldl (fun n c => 10 * n + (c - 48)) 0 : Nat), 1⟩
  else none

/-- The instance: exact arithmetic on fractions. -/
def stdLib : Lib (Option Frac) where
  dec := fun m e => some ⟨m, 10 ^ e⟩
  mul := fun a b => do
    let a ← a
    let b ← b
    some ⟨a.num * b.num, a.den * b.den⟩
  div := fun a b => do
    let a ← a
    let b ← b
    if b.num = 0 then none else some ⟨a.num * b.num.sign * b.den, a.den * b.num.natAbs⟩
  add := fun a b => do
    let a ← a
    let b ← b
    some ⟨a.num * b.den + b.num * a.den, a.den * b.den⟩
  sub := fun a b => do
    let a ← a
    let b ← b
    some ⟨a.num * b.den - b.num * a.den, a.den * b.den⟩
  neg := fun a => do
    let a ← a
    some ⟨- a.num, a.den⟩
  sqrt2 := some ⟨14142135623730951, 10 ^ 16⟩
  nan := none
  ofString := parseDigits
  isZero := fun a => match a with
    | some q => q.num = 0
    | none => false
  toStr := fun a => match a with
    | some q => fracToStr q
    | none => lit "NaN"
  f2 := fun a => match a with
    | some q => toFixed 2 q
    | none => lit "NaN"
  f3 := fun a => match a with
    | some q => toFixed 3 q
    | none => lit "NaN"
  d10 := fun a => match a with
    | some n => zeroPad 10 (natStr n)
    | none => zeroPad 10 (lit "NaN")
  d02 := fun n => zeroPad 2 (natStr n)

/-- A reading of the clock: 20 February 2012, 10:30:05. -/
def sampleClock : Clock := ⟨2012, 1, 20, 10, 30, 5⟩

/-! ## The text `buildDocument` writes, in closed form -/

/-- The lines `xs`, each ended by a newline. -/
def unlines (xs : List JSString) : JSString := xs.flatMap (fun s => s ++ lit "\n")

/-- The lines of the Page dictionary declared as object `n`. -/
def pageObject (n : Nat) : List JSString :=
  [natStr n ++ lit " 0 obj", lit "<</Type /Page", lit "/Parent 1 0 R", lit "/Resources 2 0 R",
   lit "/Contents " ++ natStr (n + 1) ++ lit " 0 R>>", lit "endobj"]

/-- The lines of the content stream object `n` of a page with operators `ops`. -/
def contentObject (n : Nat) (ops : List JSString) : List JSString :=
  [natStr n ++ lit " 0 obj",
   lit "<</Length " ++ natStr ((lit "\n").intercalate ops).length ++ lit ">>",
   lit "stream", (lit "\n").intercalate ops, lit "endstream", lit "endobj"]

/-- A layout: the objects written one after the other, each with the number
it is declared under and its text. -/
abbrev Layout := List (Nat × JSString)

/-- The text of a layout. -/
def layText (cs : Layout) : JSString := cs.flatMap Prod.snd

/-- The offset table after the objects of a layout are written from position
`base` on: each number gets the position its text starts at. -/
def layOffs (base : Nat) (offs : Sparse Nat) : Layout → Sparse Nat
  | [] => offs
  | c :: cs => layOffs (base + c.2.length) (setAt offs c.1 base) cs

/-- The layout of the pages `pgs` when the object counter is `o`. -/
def pagesLayout (o : Nat) : List (List JSString) → Layout
  | [] => []
  | ops :: rest =>
    (o + 1, unlines (pageObject (o + 1))) :: (o + 2, unlines (contentObject (o + 2) ops)) ::
      pagesLayout (o + 2) rest

/-- The lines of the font object `n` for the entry `font`. -/
def fontObject (n : Nat) (font : Font) : List JSString :=
  [natStr n ++ lit " 0 obj", lit "<</BaseFont/" ++ font.name ++ lit "/Type/Font",
   lit "/Subtype/Type1>>", lit "endobj"]

/-- The layout of the font objects when the object counter is `o`. -/
def fontsLayout (o : Nat) : List Font → Layout
  | [] => []
  | font :: rest => (o + 1, unlines (fontObject (o + 1) font)) :: fontsLayout (o + 1) rest

/-- The `fonts` array after `putFonts`, run when the object counter is `o`. -/
def numberFonts (o : Nat) : List Font → List Font
  | [] => []
  | font :: rest => { font with number := o + 1 } :: numberFonts (o + 1) rest

/-- The line of the `/Font` dictionary for an entry of `fonts`. -/
def fontRef (font : Font) : JSString :=
  lit "/" ++ font.key ++ lit " " ++ natStr font.number ++ lit " 0 R"

/-- The lines of the Pages root, object 1. -/
def pagesRoot (L : Lib ν) (d : Doc ν) : List JSString :=
  [lit "1 0 obj", lit "<</Type /Pages", kidsLine d.page ++ lit "]", lit "/Count " ++ natStr d.page,
   lit "/MediaBox [0 0 " ++ L.f2 (L.mul (toNum L d.pageWidth) d.k) ++ lit " " ++
     L.f2 (L.mul (toNum L d.pageHeight) d.k) ++ lit "]",
   lit ">>", lit "endobj"]

/-- The lines of the resource dictionary, object 2. -/
def resourceObject (fonts : List Font) : List JSString :=
  [lit "2 0 obj", lit "<<", lit "/ProcSet [/PDF /Text /ImageB /ImageC /ImageI]", lit "/Font <<"] ++
    fonts.map fontRef ++ [lit ">>", lit "/XObject <<", lit ">>", lit ">>", lit "endobj"]

/-- The line of an optional entry of the Info dictionary. -/
def infoEntry (key : JSString) (value : Option JSString) : List JSString :=
  match value with
  | some v => [key ++ pdfEscape v ++ lit ")"]
  | none => []

/-- The lines `putInfo` writes. -/
def infoLines (L : Lib ν) (now : Clock) (p : Props) : List JSString :=
  [lit "/Producer (jsPDF " ++ lit "20120220" ++ lit ")"] ++
    infoEntry (lit "/Title (") p.title ++ infoEntry (lit "/Subject (") p.subject ++
    infoEntry (lit "/Author (") p.author ++ infoEntry (lit "/Keywords (") p.keywords ++
    infoEntry (lit "/Creator (") p.creator ++
    [lit "/CreationDate (D:" ++
      (L.d02 now.year ++ L.d02 (now.month + 1) ++ L.d02 now.day ++
        L.d02 now.hour ++ L.d02 now.minute ++ L.d02 now.second) ++ lit ")"]

/-- The lines of the Info dictionary, object `n`. -/
def infoObject (L : Lib ν) (now : Clock) (p : Props) (n : Nat) : List JSString :=
  [natStr n ++ lit " 0 obj", lit "<<"] ++ infoLines L now p ++ [lit ">>", lit "endobj"]

/-- The lines of the Catalog, object `n`. -/
def catalogObject (n : Nat) : List JSString :=
  [natStr n ++ lit " 0 obj", lit "<<", lit "/Type /Catalog", lit "/Pages 1 0 R",
   lit "/OpenAction [3 0 R /FitH null]", lit "/PageLayout /OneColumn", lit ">>", lit "endobj"]

/-- The lines of the cross-reference section for the offset table `offs` and
the object counter `n`. -/
def xrefLines (L : Lib ν) (offs : Sparse Nat) (n : Nat) : List JSString :=
  [lit "xref", lit "0 " ++ natStr (n + 1), lit "0000000000 65535 f "] ++
    (List.range' 1 n).map (fun i => L.d10 (offs i) ++ lit " 00000 n ")

/-- The lines of the trailer for the object counter `n` and the position `o`
of the cross-reference section. -/
def trailerLines (n o : Nat) : List JSString :=
  [lit "trailer", lit "<<", lit "/Size " ++ natStr (n + 1), lit "/Root " ++ natStr n ++ lit " 0 R",
   lit "/Info " ++ natStr (n - 1) ++ lit " 0 R", lit ">>", lit "startxref", natStr o, lit "%%EOF"]

/-- The objects `buildDocument` writes after the header, in the order it
writes them, for a document whose pages are `pgs`. -/
def bodyLayout (L : Lib ν) (now : Clock) (d : Doc ν) (pgs : List (List JSString)) : Layout :=
  let o := d.objectNumber
  let n := o + 2 * d.page + d.fonts.length
  pagesLayout o pgs ++ [(1, unlines (pagesRoot L d))] ++
    fontsLayout (o + 2 * d.page) d.fonts ++
    [(2, unlines (resourceObject (numberFonts (o + 2 * d.page) d.fonts)))] ++
    [(n + 1, unlines (infoObject L now d.documentProperties (n + 1))),
     (n + 2, unlines (catalogObject (n + 2)))]

/-- The document `buildDocument` leaves, for a document whose pages are `pgs`. -/
def built (L : Lib ν) (now : Clock) (d : Doc ν) (pgs : List (List JSString)) : Doc ν :=
  let head := d.buffer ++ unlines [lit "%PDF-" ++ lit "1.3"]
  let body := bodyLayout L now d pgs
  let n := d.objectNumber + 2 * d.page + d.fonts.length + 2
  let offs := layOffs head.length d.offsets body
  { d with
    state := 3
    objectNumber := n
    fonts := numberFonts (d.objectNumber + 2 * d.page) d.fonts
    offsets := offs
    buffer := head ++ layText body ++ unlines (xrefLines L offs n) ++
      unlines (trailerLines n (head ++ layText body).length) }

/-! ## Invariants of the public interface -/

/-- Every page up to the page count holds an operator list, and a document in
state 2 has a current page. -/
structure Live (d : Doc ν) : Prop where
  pages : ∀ n, 1 ≤ n → n ≤ d.page → (d.pages n).isSome
  current : d.state = 2 → 1 ≤ d.page

/-- What a call other than `output` keeps: the object counter, the offset
table and the fonts stay, and the buffer only grows at its end; while a page is
open the buffer stays as it is and the page stays open. -/
structure Grows (d d' : Doc ν) : Prop where
  objectNumber : d'.objectNumber = d.objectNumber
  offsets : d'.offsets = d.offsets
  fonts : d'.fonts = d.fonts
  buffer : d.buffer <+: d'.buffer
  page : d.page ≤ d'.page
  stays : d.state = 2 → d'.state = 2 ∧ d'.buffer = d.buffer

/-- The state of a document from its construction to its first `output()`. -/
structure Ready (d : Doc ν) : Prop where
  live : Live d
  buffer : d.buffer = []
  state : d.state = 2
  objectNumber : d.objectNumber = 2
  offsets : ∀ i, d.offsets i = none
  fonts : d.fonts.length = 12

/-- The operator lists of the pages 1 to `page`, in order. -/
def pageList (d : Doc ν) : List (List JSString) :=
  (List.range' 1 d.page).map (fun n => (d.pages n).getD [])

/-- The number of pages a call adds. -/
def Call.pagesAdded : Call ν → Nat
  | .addPage => 1
  | _ => 0

/-- The order in which `buildDocument` declares the objects of a document
with `p` pages: the objects of the pages, the Pages root, the fonts, the
resource dictionary, Info, Catalog. -/
def writeOrder (p : Nat) : List Nat :=
  List.range' 3 (2 * p) ++ 1 :: (List.range' (2 * p + 3) 12 ++ [2, 2 * p + 15, 2 * p + 16])

/-- The declaration line of object `i`, with its newline. -/
def declLine (i : Nat) : JSString := natStr i ++ lit " 0 obj" ++ lit "\n"

/-- In the output `s` with offset table `offs`, the text at the offset of
object `i` starts with `t`. -/
def ObjectAt (offs : Sparse Nat) (s : JSString) (i : Nat) (t : JSString) : Prop :=
  ∃ off, offs i = some off ∧ t <+: s.drop off

/-- The position of object `i` in the write order of a document with `p` pages. -/
def rank (p i : Nat) : Nat :=
  if i = 1 then 2 * p
  else if i = 2 then 2 * p + 13
  else if i ≤ 2 * p + 2 then i - 3
  else if i ≤ 2 * p + 14 then i - 2
  else i - 1

/-- Both objects have an offset, and the offset of `i` is below that of `j`. -/
def OffsetLt (offs : Sparse Nat) (i j : Nat) : Prop :=
  ∃ a b, offs i = some a ∧ offs j = some b ∧ a < b

/-- The scenario of the claims: construct a document, make the calls, call
`output()`; the result is the document after the call and the string returned. -/
def firstOutput (L : Lib ν) (orientation unit : Option JSString) (format : Option (FormatArg ν))
    (calls : List (Call ν)) (now : Clock) : Except Err (Doc ν × JSString) := do
  let d ← jsPDF L orientation unit format
  let d ← run L d calls
  output L now d

/-- The image of one code unit under escaping, as the specification words it:
a backslash becomes two backslashes, each parenthesis gets a backslash in
front, every other code unit is copied. -/
def escapeUnit (c : Nat) : JSString :=
  if c = 92 then [92, 92] else if c = 40 then [92, 40] else if c = 41 then [92, 41] else [c]

/-- A reserved code unit: backslash, `(` or `)`. -/
def isReserved (c : Nat) : Bool := c = 92 || c = 40 || c = 41

/-- The four units of the constructor. -/
def units : List JSString := [lit "pt", lit "mm", lit "cm", lit "in"]

/-- The orientation is one the constructor accepts. -/
abbrev validOrientation (orientation : Option JSString) : Prop :=
  toLowerCase (orientation.getD (lit "p")) ∈
    [lit "p", lit "portrait", lit "l", lit "landscape"]

/-! ## Sample inputs -/

/-- The number `n` of the executable instance. -/
def num (n : Nat) : Option Frac := some ⟨n, 1⟩

/-- A text, a second page and two shapes on it. -/
def sampleCalls : List (Call (Option Frac)) :=
  [.text (num 10) (num 10) (.str (lit "Hi")), .addPage,
   .rect (num 10) (num 20) (num 30) (num 40) none,
   .ellipse (num 50) (num 50) (num 20) (num 10) (some (lit "F"))]

/-- The scenario of two `addPage()` calls with one `rect` after each. -/
def twoPages : List (Call (Option Frac)) :=
  [.addPage, .rect (num 10) (num 20) (num 30) (num 40) none,
   .addPage, .rect (num 10) (num 20) (num 30) (num 40) none]

/-! ## Frames of the calls -/

/-- The three font families, in the order `addFonts` registers them. -/
def families : List JSString := [lit "helvetica", lit "courier", lit "times"]

/-- The four font styles, in the order `addFonts` registers them. -/
def styles : List JSString := [lit "normal", lit "bold", lit "italic", lit "bolditalic"]

/-- What a call other than `output` keeps of the settings: the scale factor,
the page size, the stored line width and draw colour and the fonts stay; the
font family and style stay or become one of the registered ones. -/
structure Keeps (d d' : Doc ν) : Prop where
  k : d'.k = d.k
  pageWidth : d'.pageWidth = d.pageWidth
  pageHeight : d'.pageHeight = d.pageHeight
  lineWidth : d'.lineWidth = d.lineWidth
  drawColor : d'.drawColor = d.drawColor
  fontName : d'.fontName = d.fontName ∨ d'.fontName ∈ families
  fontType : d'.fontType = d.fontType ∨ d'.fontType ∈ styles

/-- What a call does to the pages that exist: the pages before the current
one stay, and the current page has operators added at its end. -/
structure Appends (d d' : Doc ν) : Prop where
  earlier : ∀ n, n < d.page → d'.pages n = d.pages n
  current : ∃ ops new, d.pages d.page = some ops ∧ d'.pages d.page = some (ops ++ new)

/-- The paint operator of a style argument, as the specification words it. -/
def paintOp (style : Option JSString) : JSString :=
  if style = some (lit "F") then lit "f"
  else if style = some (lit "FD") ∨ style = some (lit "DF") then lit "B"
  else lit "S"

/-- The colour operator of the arguments `r`, `g`, `b`, as the specification
words it: the grey variant (ending in `gray`) with the operand `r/255` when `g`
is omitted or all three are zero, the RGB variant (ending in `rgb`) with three
operands otherwise. -/
def colorOp (L : Lib ν) (r : ν) (g b : Option ν) (gray rgb : JSString) : JSString :=
  if g.isNone = true ∨ (L.isZero r = true ∧ optIsZero L g = true ∧ optIsZero L b = true) then
    L.f3 (L.div r (L.dec 255 0)) ++ gray
  else
    L.f3 (L.div r (L.dec 255 0)) ++ lit " " ++ L.f3 (L.div (optNum L g) (L.dec 255 0)) ++
      lit " " ++ L.f3 (L.div (optNum L b) (L.dec 255 0)) ++ rgb

/-- The document with the operator list of its current page set to `ops`. -/
def withOps (d : Doc ν) (ops : List JSString) : Doc ν :=
  { d with pages := setAt d.pages d.page ops }

/-- The index of a string in a list of strings. -/
def indexIn (xs : List JSString) (x : JSString) : Nat := xs.indexOf x

/-- The names of the table `pageFormats`. -/
def formatNames : List JSString := [lit "a3", lit "a4", lit "a5", lit "letter", lit "legal"]

/-- The entry of the table `pageFormats` for a name, as decimal literals
`(m, e)` standing for `m / 10 ^ e`: width and height in points. -/
def formatTable (name : JSString) : (Nat × Nat) × (Nat × Nat) :=
  if name = lit "a3" then ((84189, 2), (119055, 2))
  else if name = lit "a4" then ((59528, 2), (84189, 2))
  else if name = lit "a5" then ((42094, 2), (59528, 2))
  else if name = lit "letter" then ((612, 0), (792, 0))
  else ((612, 0), (1008, 0))

/-- The arithmetic of the library is exact for the four scale factors:
dividing by one and multiplying by it again gives the number back. -/
def ExactScale (L : Lib ν) : Prop :=
  ∀ a k, (k = L.dec 1 0 ∨ k = L.div (L.dec 72 0) (L.dec 254 1) ∨
      k = L.div (L.dec 72 0) (L.dec 254 2) ∨ k = L.dec 72 0) →
    L.mul (L.div a k) k = a

/-- Exact rational arithmetic; the strings it prints play no part. -/
def ratLib : Lib ℚ where
  dec := fun m e => (m : ℚ) / 10 ^ e
  mul := fun a b => a * b
  div := fun a b => a / b
  add := fun a b => a + b
  sub := fun a b => a - b
  neg := fun a => - a
  sqrt2 := 14142135623730951 / 10 ^ 16
  nan := 0
  ofString := fun _ => 0
  isZero := fun a => a = 0
  toStr := fun _ => []
  f2 := fun _ => []
  f3 := fun _ => []
  d10 := fun _ => []
  d02 := fun _ => []

/-- The `fonts` array `addFonts` builds when the object counter is `o`. -/
def fontTable (o : Nat) : List Font :=
  [⟨lit "F" ++ natStr 1, o, lit "Helvetica", lit "helvetica", lit "normal"⟩,
   ⟨lit "F" ++ natStr 2, o, lit "Helvetica-Bold", lit "helvetica", lit "bold"⟩,
   ⟨lit "F" ++ natStr 3, o, lit "Helvetica-Oblique", lit "helvetica", lit "italic"⟩,
   ⟨lit "F" ++ natStr 4, o, lit "Helvetica-BoldOblique", lit "helvetica", lit "bolditalic"⟩,
   ⟨lit "F" ++ natStr 5, o, lit "Courier", lit "courier", lit "normal"⟩,
   ⟨lit "F" ++ natStr 6, o, lit "Courier-Bold", lit "courier", lit "bold"⟩,
   ⟨lit "F" ++ natStr 7, o, lit "Courier-Oblique", lit "courier", lit "italic"⟩,
   ⟨lit "F" ++ natStr 8, o, lit "Courier-BoldOblique", lit "courier", lit "bolditalic"⟩,
   ⟨lit "F" ++ natStr 9, o, lit "Times-Roman", lit "times", lit "normal"⟩,
   ⟨lit "F" ++ natStr 10, o, lit "Times-Bold", lit "times", lit "bold"⟩,
   ⟨lit "F" ++ natStr 11, o, lit "Times-Italic", lit "times", lit "italic"⟩,
   ⟨lit "F" ++ natStr 12, o, lit "Times-BoldItalic", lit "times", lit "bolditalic"⟩]

/-- The head of the block `text` emits, up to the opening parenthesis of the
first string: font and size, leading, text colour and position. -/
def textHead (L : Lib ν) (d : Doc ν) (x y : ν) : JSString :=
  lit "BT\n/" ++ getFont d ++ lit " " ++ L.toStr d.fontSize ++ lit " Tf\n" ++
    L.toStr d.fontSize ++ lit " TL\n" ++ d.textColor ++ lit "\n" ++ L.f2 (L.mul x d.k) ++
    lit " " ++ L.f2 (L.mul (L.sub (toNum L d.pageHeight) y) d.k) ++ lit " Td\n"


/-! ## `buildDocument` computes the closed form -/

theorem out_ok (d : Doc ν) (s : JSString) (h : d.state ≠ 2) :
    out d s = .ok { d with buffer := d.buffer ++ unlines [s] } := by
  simp [out, h, unlines]

theorem putPage_ok (d : Doc ν) (n : Nat) (ops : List JSString) (h : d.state ≠ 2)
    (hp : d.pages n = some ops) :
    putPage d n = .ok { d with
      objectNumber := d.objectNumber + 2
      offsets := setAt (setAt d.offsets (d.objectNumber + 1) d.buffer.length)
        (d.objectNumber + 2) (d.buffer.length + (unlines (pageObject (d.objectNumber + 1))).length)
      buffer := d.buffer ++ (unlines (pageObject (d.objectNumber + 1)) ++
        unlines (contentObject (d.objectNumber + 2) ops)) } := by
  simp [putPage, newObject, putStream, out, h, hp, pageObject, contentObject, unlines, bind, Except.bind]

theorem layText_append (a b : Layout) : layText (a ++ b) = layText a ++ layText b := by
  simp [layText]

theorem layOffs_append (a b : Layout) : ∀ (base : Nat) (offs : Sparse Nat),
    layOffs base offs (a ++ b) = layOffs (base + (layText a).length) (layOffs base offs a) b := by
  induction a with
  | nil => intro base offs; simp [layOffs, layText]
  | cons c cs ih =>
    intro base offs
    simp [layOffs, layText, ih, Nat.add_assoc]

theorem putPages_loop (ns : List Nat) : ∀ (d : Doc ν) (pgs : List (List JSString)),
    d.state ≠ 2 → ns.map d.pages = pgs.map some →
    ns.foldlM putPage d = .ok { d with
      objectNumber := d.objectNumber + 2 * ns.length
      offsets := layOffs d.buffer.length d.offsets (pagesLayout d.objectNumber pgs)
      buffer := d.buffer ++ layText (pagesLayout d.objectNumber pgs) } := by
  induction ns with
  | nil =>
    intro d pgs _ hp
    cases pgs with
    | nil => simp [pagesLayout, layOffs, layText, pure, Except.pure]
    | cons _ _ => simp at hp
  | cons n ns ih =>
    intro d pgs h hp
    cases pgs with
    | nil => simp at hp
    | cons ops rest =>
      simp only [List.map_cons, List.cons.injEq] at hp
      rw [List.foldlM_cons, putPage_ok d n ops h hp.1]
      simp only [bind, Except.bind]
      refine (ih _ rest ?_ ?_).trans ?_
      · exact h
      · exact hp.2
      · simp [pagesLayout, layOffs, layText, Nat.add_assoc, Nat.mul_add, Nat.add_comm]

theorem putFontsFrom_ok (fs : List Font) : ∀ (d : Doc ν), d.state ≠ 2 →
    putFontsFrom fs d = .ok (numberFonts d.objectNumber fs, { d with
      objectNumber := d.objectNumber + fs.length
      offsets := layOffs d.buffer.length d.offsets (fontsLayout d.objectNumber fs)
      buffer := d.buffer ++ layText (fontsLayout d.objectNumber fs) }) := by
  induction fs with
  | nil => intro d _; simp [putFontsFrom, numberFonts, fontsLayout, layOffs, layText]
  | cons f fs ih =>
    intro d h
    have h1 : putFont d f = .ok ({ f with number := d.objectNumber + 1 }, { d with
        objectNumber := d.objectNumber + 1
        offsets := setAt d.offsets (d.objectNumber + 1) d.buffer.length
        buffer := d.buffer ++ unlines (fontObject (d.objectNumber + 1) f) }) := by
      simp [putFont, newObject, out, h, fontObject, unlines, bind, Except.bind]
    simp only [putFontsFrom, h1, bind, Except.bind]
    rw [ih]
    · simp [numberFonts, fontsLayout, layOffs, layText, Nat.add_assoc, Nat.add_comm]
      omega
    · exact h

theorem out_loop {α : Type} (g : α → JSString) (xs : List α) : ∀ (d : Doc ν), d.state ≠ 2 →
    xs.foldlM (fun d x => out d (g x)) d =
      .ok { d with buffer := d.buffer ++ unlines (xs.map g) } := by
  induction xs with
  | nil => intro d _; simp [unlines, pure, Except.pure]
  | cons x xs ih =>
    intro d h
    rw [List.foldlM_cons, out_ok d _ h]
    simp only [bind, Except.bind]
    refine (ih _ ?_).trans ?_
    · exact h
    · simp [unlines]

theorem xref_loop (L : Lib ν) (ns : List Nat) : ∀ (d : Doc ν), d.state ≠ 2 →
    ns.foldlM (fun d i => out d (L.d10 (d.offsets i) ++ lit " 00000 n ")) d =
      .ok { d with
        buffer := d.buffer ++ unlines (ns.map (fun i => L.d10 (d.offsets i) ++ lit " 00000 n ")) } := by
  induction ns with
  | nil => intro d _; simp [unlines, pure, Except.pure]
  | cons n ns ih =>
    intro d h
    rw [List.foldlM_cons, out_ok d _ h]
    simp only [bind, Except.bind]
    refine (ih _ ?_).trans ?_
    · exact h
    · simp [unlines]

theorem putPages_ok (L : Lib ν) (d : Doc ν) (pgs : List (List JSString)) (h : d.state ≠ 2)
    (hp : (List.range' 1 d.page).map d.pages = pgs.map some) :
    putPages L d = .ok { d with
      objectNumber := d.objectNumber + 2 * d.page
      offsets := layOffs d.buffer.length d.offsets
        (pagesLayout d.objectNumber pgs ++ [(1, unlines (pagesRoot L d))])
      buffer := d.buffer ++
        layText (pagesLayout d.objectNumber pgs ++ [(1, unlines (pagesRoot L d))]) } := by
  simp only [putPages, putPages_loop _ d pgs h hp, bind, Except.bind]
  simp [out, h, layOffs_append, layText_append, layOffs, layText, pagesRoot, unlines]

theorem putInfoEntry_ok (d : Doc ν) (key : JSString) (value : Option JSString) (h : d.state ≠ 2) :
    putInfoEntry d key value = .ok { d with buffer := d.buffer ++ unlines (infoEntry key value) } := by
  cases value <;> simp [putInfoEntry, infoEntry, out, h, unlines]

theorem putResources_ok (d : Doc ν) (h : d.state ≠ 2) :
    putResources d = .ok { d with
      objectNumber := d.objectNumber + d.fonts.length
      fonts := numberFonts d.objectNumber d.fonts
      offsets := layOffs d.buffer.length d.offsets
        (fontsLayout d.objectNumber d.fonts ++
          [(2, unlines (resourceObject (numberFonts d.objectNumber d.fonts)))])
      buffer := d.buffer ++
        layText (fontsLayout d.objectNumber d.fonts ++
          [(2, unlines (resourceObject (numberFonts d.objectNumber d.fonts)))]) } := by
  simp [putResources, putFonts, putFontsFrom_ok, putImages, putResourceDictionary,
    putXobjectDict, bind, Except.bind, out_ok, out_loop, h, layOffs_append, layText_append,
    layOffs, layText, resourceObject, unlines,
    (funext fun f => by simp [fontRef] : fontRef = fun x : Font =>
      lit "/" ++ (x.key ++ (lit " " ++ (natStr x.number ++ lit " 0 R"))))]

theorem putInfo_ok (L : Lib ν) (now : Clock) (d : Doc ν) (h : d.state ≠ 2) :
    putInfo L now d = .ok { d with
      buffer := d.buffer ++ unlines (infoLines L now d.documentProperties) } := by
  simp [putInfo, putInfoEntry_ok, out_ok, h, bind, Except.bind, infoLines, unlines]

theorem putCatalog_ok (d : Doc ν) (h : d.state ≠ 2) :
    putCatalog d = .ok { d with
      buffer := d.buffer ++ unlines [lit "/Type /Catalog", lit "/Pages 1 0 R",
        lit "/OpenAction [3 0 R /FitH null]", lit "/PageLayout /OneColumn"] } := by
  simp [putCatalog, out_ok, h, bind, Except.bind, unlines]

theorem putTrailer_ok (d : Doc ν) (h : d.state ≠ 2) :
    putTrailer d = .ok { d with
      buffer := d.buffer ++ unlines [lit "/Size " ++ natStr (d.objectNumber + 1),
        lit "/Root " ++ natStr d.objectNumber ++ lit " 0 R",
        lit "/Info " ++ natStr (d.objectNumber - 1) ++ lit " 0 R"] } := by
  simp [putTrailer, out_ok, h, bind, Except.bind, unlines]

theorem newObject_ok (d : Doc ν) (h : d.state ≠ 2) :
    newObject d = .ok { d with
      objectNumber := d.objectNumber + 1
      offsets := setAt d.offsets (d.objectNumber + 1) d.buffer.length
      buffer := d.buffer ++ unlines [natStr (d.objectNumber + 1) ++ lit " 0 obj"] } := by
  simp [newObject, out_ok, h, unlines]

theorem unlines_append (a b : List JSString) : unlines (a ++ b) = unlines a ++ unlines b := by
  simp [unlines]

theorem unlines_nil : unlines [] = [] := rfl

theorem layText_nil : layText [] = [] := rfl

theorem layText_cons (c : Nat × JSString) (cs : Layout) : layText (c :: cs) = c.2 ++ layText cs := by
  simp [layText]

theorem unlines_cons (a : JSString) (b : List JSString) :
    unlines (a :: b) = a ++ lit "\n" ++ unlines b := by
  simp [unlines]

theorem buildDocument_ok (L : Lib ν) (now : Clock) (d : Doc ν) (pgs : List (List JSString))
    (hp : (List.range' 1 d.page).map d.pages = pgs.map some) :
    buildDocument L now d = .ok (built L now d pgs, (built L now d pgs).buffer) := by
  have h1 : (1 : Nat) ≠ 2 := by decide
  unfold buildDocument
  simp only [bind, Except.bind, putHeader]
  rw [out_ok _ _ h1]; dsimp only
  rw [putPages_ok L _ pgs h1 (by exact hp)]; dsimp only
  rw [putResources_ok _ h1]; dsimp only
  rw [newObject_ok _ h1]; dsimp only
  rw [out_ok _ _ h1]; dsimp only
  rw [putInfo_ok L now _ h1]; dsimp only
  rw [out_ok _ _ h1]; dsimp only
  rw [out_ok _ _ h1]; dsimp only
  rw [newObject_ok _ h1]; dsimp only
  rw [out_ok _ _ h1]; dsimp only
  rw [putCatalog_ok _ h1]; dsimp only
  rw [out_ok _ _ h1]; dsimp only
  rw [out_ok _ _ h1]; dsimp only
  rw [out_ok _ _ h1]; dsimp only
  rw [out_ok _ _ h1]; dsimp only
  rw [out_ok _ _ h1]; dsimp only
  rw [xref_loop L _ _ h1]; dsimp only
  rw [out_ok _ _ h1]; dsimp only
  rw [out_ok _ _ h1]; dsimp only
  rw [putTrailer_ok _ h1]; dsimp only
  rw [out_ok _ _ h1]; dsimp only
  rw [out_ok _ _ h1]; dsimp only
  rw [out_ok _ _ h1]; dsimp only
  rw [out_ok _ _ h1]; dsimp only
  simp only [built, bodyLayout, pagesRoot, infoObject, catalogObject, xrefLines, trailerLines,
    layOffs_append, layText_append, layOffs, layText_cons, layText_nil, unlines_append,
    unlines_cons, unlines_nil, List.length_append, List.append_assoc, List.cons_append,
    List.nil_append, List.append_nil, Nat.add_assoc, List.length_nil, Nat.add_zero,
    List.length_cons]

/-! ## The calls keep the invariants -/

theorem Grows.refl (d : Doc ν) : Grows d d :=
  ⟨rfl, rfl, rfl, List.prefix_refl _, Nat.le_refl _, fun h => ⟨h, rfl⟩⟩

theorem Grows.trans {a b c : Doc ν} (h1 : Grows a b) (h2 : Grows b c) : Grows a c :=
  ⟨h2.objectNumber.trans h1.objectNumber, h2.offsets.trans h1.offsets, h2.fonts.trans h1.fonts,
   h1.buffer.trans h2.buffer, Nat.le_trans h1.page h2.page,
   fun h => ⟨(h2.stays (h1.stays h).1).1, ((h2.stays (h1.stays h).1).2).trans (h1.stays h).2⟩⟩

theorem out_live (d : Doc ν) (s : JSString) (h : Live d) :
    ∃ d', out d s = .ok d' ∧ Live d' ∧ Grows d d' ∧ d'.page = d.page ∧ d'.state = d.state := by
  by_cases hs : d.state = 2
  · have hp := h.pages d.page (h.current hs) (Nat.le_refl _)
    obtain ⟨ops, ho⟩ := Option.isSome_iff_exists.mp hp
    refine ⟨{ d with pages := setAt d.pages d.page (ops ++ [s]) }, ?_, ?_, ?_, rfl, rfl⟩
    · simp [out, hs, ho]
    · refine ⟨fun n h1 h2 => ?_, fun h' => h.current h'⟩
      show (setAt d.pages d.page (ops ++ [s]) n).isSome
      unfold setAt
      split
      · rfl
      · exact h.pages n h1 h2
    · exact ⟨rfl, rfl, rfl, List.prefix_refl _, Nat.le_refl _, fun h' => ⟨h', rfl⟩⟩
  · refine ⟨{ d with buffer := d.buffer ++ unlines [s] }, out_ok d s hs, ?_, ?_, rfl, rfl⟩
    · exact ⟨h.pages, h.current⟩
    · exact ⟨rfl, rfl, rfl, List.prefix_append _ _, Nat.le_refl _, fun h' => absurd h' hs⟩

theorem addPage_live (L : Lib ν) (d : Doc ν) (h : Live d) :
    ∃ d', addPage' L d = .ok d' ∧ Live d' ∧ Grows d d' ∧ d'.page = d.page + 1 ∧
      d'.state = 2 ∧ d'.buffer = d.buffer := by
  have hb : Live (beginPage d) := by
    refine ⟨fun n h1 h2 => ?_, fun _ => ?_⟩
    · show (setAt d.pages (d.page + 1) [] n).isSome
      unfold setAt
      split
      · rfl
      · rename_i hn
        have h2' : n ≤ d.page + 1 := h2
        exact h.pages n h1 (by omega)
    · show 1 ≤ d.page + 1
      omega
  have hg : Grows d (beginPage d) :=
    ⟨rfl, rfl, rfl, List.prefix_refl _, Nat.le_succ _, fun _ => ⟨rfl, rfl⟩⟩
  obtain ⟨d1, e1, l1, g1, p1, s1⟩ := out_live (beginPage d)
    (L.f2 (L.mul (beginPage d).lineWidth (beginPage d).k) ++ lit " w") hb
  obtain ⟨d2, e2, l2, g2, p2, s2⟩ := out_live d1 (beginPage d).drawColor l1
  have hd : d1.drawColor = (beginPage d).drawColor := by
    unfold out at e1
    split at e1
    · split at e1
      · cases e1; rfl
      · cases e1
    · cases e1; rfl
  refine ⟨d2, ?_, l2, hg.trans (g1.trans g2), ?_, ?_, ?_⟩
  · simp only [addPage', bind, Except.bind, e1]
    rw [hd]; exact e2
  · rw [p2, p1]; rfl
  · rw [s2, s1]; rfl
  · have st : (beginPage d).state = 2 := rfl
    rw [(g2.stays (s1.trans st)).2, (g1.stays st).2]; rfl

theorem out4_live (d : Doc ν) (a b c e : JSString) (h : Live d) :
    ∃ d', (do
        let d ← out d a
        let d ← out d b
        let d ← out d c
        out d e) = .ok d' ∧ Live d' ∧ Grows d d' ∧ d'.page = d.page := by
  obtain ⟨d1, e1, l1, g1, p1, _⟩ := out_live d a h
  obtain ⟨d2, e2, l2, g2, p2, _⟩ := out_live d1 b l1
  obtain ⟨d3, e3, l3, g3, p3, _⟩ := out_live d2 c l2
  obtain ⟨d4, e4, l4, g4, p4, _⟩ := out_live d3 e l3
  refine ⟨d4, ?_, l4, g1.trans (g2.trans (g3.trans g4)), ?_⟩
  · simp only [bind, Except.bind, e1, e2, e3, e4]
  · rw [p4, p3, p2, p1]

theorem out1_live (d : Doc ν) (a : JSString) (h : Live d) :
    ∃ d', out d a = .ok d' ∧ Live d' ∧ Grows d d' ∧ d'.page = d.page := by
  obtain ⟨d1, e1, l1, g1, p1, _⟩ := out_live d a h
  exact ⟨d1, e1, l1, g1, p1⟩

theorem apply_live (L : Lib ν) (d : Doc ν) (c : Call ν) (h : Live d) :
    ∃ d', c.apply L d = .ok d' ∧ Live d' ∧ Grows d d' ∧ d'.page = d.page + c.pagesAdded := by
  cases c with
  | addPage =>
    obtain ⟨d', e, l, g, p, _⟩ := addPage_live L d h
    exact ⟨d', e, l, g, p⟩
  | text x y t => exact out1_live d _ h
  | line x1 y1 x2 y2 => exact out1_live d _ h
  | rect x y w hh style => exact out1_live d _ h
  | ellipse x y rx ry style => exact out4_live d _ _ _ _ h
  | circle x y r style => exact out4_live d _ _ _ _ h
  | setProperties p =>
    exact ⟨_, rfl, ⟨h.pages, h.current⟩,
      ⟨rfl, rfl, rfl, List.prefix_refl _, Nat.le_refl _, fun h' => ⟨h', rfl⟩⟩, rfl⟩
  | addImage => exact ⟨_, rfl, h, Grows.refl d, rfl⟩
  | setFontSize size =>
    exact ⟨_, rfl, ⟨h.pages, h.current⟩,
      ⟨rfl, rfl, rfl, List.prefix_refl _, Nat.le_refl _, fun h' => ⟨h', rfl⟩⟩, rfl⟩
  | setFont name =>
    refine ⟨_, rfl, ?_, ?_, ?_⟩ <;> (unfold setFont; dsimp only; split)
    · exact ⟨h.pages, h.current⟩
    · exact h
    · exact ⟨rfl, rfl, rfl, List.prefix_refl _, Nat.le_refl _, fun h' => ⟨h', rfl⟩⟩
    · exact Grows.refl d
    · rfl
    · rfl
  | setFontType type =>
    refine ⟨_, rfl, ?_, ?_, ?_⟩ <;> (unfold setFontType; dsimp only; split)
    · exact ⟨h.pages, h.current⟩
    · exact h
    · exact ⟨rfl, rfl, rfl, List.prefix_refl _, Nat.le_refl _, fun h' => ⟨h', rfl⟩⟩
    · exact Grows.refl d
    · rfl
    · rfl
  | setLineWidth width => exact out1_live d _ h
  | setDrawColor r g b => exact out1_live d _ h
  | setFillColor r g b => exact out1_live d _ h
  | setTextColor r g b =>
    exact ⟨_, rfl, ⟨h.pages, h.current⟩,
      ⟨rfl, rfl, rfl, List.prefix_refl _, Nat.le_refl _, fun h' => ⟨h', rfl⟩⟩, rfl⟩

theorem run_live (L : Lib ν) (calls : List (Call ν)) : ∀ (d : Doc ν), Live d →
    ∃ d', run L d calls = .ok d' ∧ Live d' ∧ Grows d d' ∧
      d'.page = d.page + (calls.map Call.pagesAdded).sum := by
  induction calls with
  | nil => intro d h; exact ⟨d, rfl, h, Grows.refl d, by simp⟩
  | cons c cs ih =>
    intro d h
    obtain ⟨d1, e1, l1, g1, p1⟩ := apply_live L d c h
    obtain ⟨d2, e2, l2, g2, p2⟩ := ih d1 l1
    refine ⟨d2, ?_, l2, g1.trans g2, ?_⟩
    · unfold run at e2 ⊢
      rw [List.foldlM_cons, e1]
      exact e2
    · rw [p2, p1, List.map_cons, List.sum_cons]; omega

theorem Ready.of_grows {d d' : Doc ν} (h : Ready d) (l : Live d') (g : Grows d d') : Ready d' :=
  ⟨l, (g.stays h.state).2.trans h.buffer, (g.stays h.state).1, g.objectNumber.trans h.objectNumber,
   fun i => by rw [g.offsets]; exact h.offsets i, by rw [g.fonts]; exact h.fonts⟩

theorem jsPDF_ready (L : Lib ν) (orientation unit : Option JSString)
    (format : Option (FormatArg ν)) (d : Doc ν) (h : jsPDF L orientation unit format = .ok d) :
    Ready d ∧ d.page = 1 := by
  unfold jsPDF at h
  simp only [bind, Except.bind] at h
  split at h
  · cases h
  · split at h
    · cases h
    · rename_i k _ size _
      generalize hd0 : addFonts _ = d0 at h
      have l0 : Live d0 := by
        subst hd0
        exact ⟨fun n h1 h2 => absurd (Nat.le_trans h1 h2) (Nat.not_succ_le_zero 0),
          fun h' => absurd (h' : (0 : Nat) = 2) (show ¬ ((0 : Nat) = 2) by decide)⟩
      obtain ⟨d', e, l, g, p, s, b⟩ := addPage_live L d0 l0
      rw [e] at h
      cases h
      subst hd0
      exact ⟨⟨l, b, s, g.objectNumber, fun i => by rw [g.offsets]; rfl, by rw [g.fonts]; rfl⟩, p⟩

theorem run_ready (L : Lib ν) (calls : List (Call ν)) (d : Doc ν) (h : Ready d) :
    ∃ d', run L d calls = .ok d' ∧ Ready d' ∧
      d'.page = d.page + (calls.map Call.pagesAdded).sum := by
  obtain ⟨d', e, l, g, p⟩ := run_live L calls d h.live
  exact ⟨d', e, h.of_grows l g, p⟩

theorem pageList_spec (d : Doc ν) (h : Live d) :
    (List.range' 1 d.page).map d.pages = (pageList d).map some := by
  unfold pageList
  rw [List.map_map]
  apply List.map_congr_left
  intro n hn
  rw [List.mem_range'_1] at hn
  obtain ⟨ops, ho⟩ := Option.isSome_iff_exists.mp (h.pages n hn.1 (by omega))
  simp [ho]

theorem pageList_length (d : Doc ν) : (pageList d).length = d.page := by
  simp [pageList]

theorem output_ok (L : Lib ν) (now : Clock) (d : Doc ν) (h : Live d) :
    output L now d = .ok (built L now d (pageList d), (built L now d (pageList d)).buffer) :=
  buildDocument_ok L now d (pageList d) (pageList_spec d h)

/-! ## Layouts -/

theorem layOffs_not_mem (cs : Layout) : ∀ (base : Nat) (offs : Sparse Nat) (i : Nat),
    i ∉ cs.map Prod.fst → layOffs base offs cs i = offs i := by
  induction cs with
  | nil => intro _ _ _ _; rfl
  | cons c cs ih =>
    intro base offs i hi
    simp only [List.map_cons, List.mem_cons, not_or] at hi
    rw [layOffs, ih _ _ _ hi.2]
    simp [setAt, hi.1]

theorem layOffs_get (cs : Layout) : ∀ (base : Nat) (offs : Sparse Nat) (k i : Nat) (t : JSString),
    (cs.map Prod.fst).Nodup → cs[k]? = some (i, t) →
    layOffs base offs cs i = some (base + (layText (cs.take k)).length) := by
  induction cs with
  | nil => intro _ _ k _ _ _ h; simp at h
  | cons c cs ih =>
    intro base offs k i t hn h
    rw [List.map_cons, List.nodup_cons] at hn
    cases k with
    | zero =>
      simp only [List.getElem?_cons_zero, Option.some.injEq] at h
      subst h
      rw [layOffs, layOffs_not_mem _ _ _ _ hn.1]
      simp [setAt, layText]
    | succ k =>
      rw [List.getElem?_cons_succ] at h
      rw [layOffs, ih _ _ k i t hn.2 h]
      simp [layText, Nat.add_assoc]

theorem layText_split (cs : Layout) : ∀ (k i : Nat) (t : JSString), cs[k]? = some (i, t) →
    layText cs = layText (cs.take k) ++ (t ++ layText (cs.drop (k + 1))) := by
  induction cs with
  | nil => intro k _ _ h; simp at h
  | cons c cs ih =>
    intro k i t h
    cases k with
    | zero =>
      simp only [List.getElem?_cons_zero, Option.some.injEq] at h
      subst h
      simp [layText]
    | succ k =>
      rw [List.getElem?_cons_succ] at h
      have := ih k i t h
      simp only [layText_cons, List.take_succ_cons, List.drop_succ_cons, List.append_assoc]
      rw [this]

theorem prefix_drop_mid (a t b : JSString) : t <+: (a ++ (t ++ b)).drop a.length := by
  rw [List.drop_left]
  exact List.prefix_append _ _

theorem lay_at (cs : Layout) (base : Nat) (offs : Sparse Nat) (head tail : JSString)
    (k i : Nat) (t : JSString) (hb : head.length = base) (hn : (cs.map Prod.fst).Nodup)
    (h : cs[k]? = some (i, t)) :
    ObjectAt (layOffs base offs cs) (head ++ layText cs ++ tail) i t := by
  refine ⟨_, layOffs_get cs base offs k i t hn h, ?_⟩
  rw [layText_split cs k i t h, ← hb]
  have := prefix_drop_mid (head ++ layText (cs.take k)) t (layText (cs.drop (k + 1)) ++ tail)
  simp only [List.append_assoc, List.length_append] at this ⊢
  exact this

theorem lay_at_mem (cs : Layout) (base : Nat) (offs : Sparse Nat) (head tail : JSString)
    (i : Nat) (t : JSString) (hb : head.length = base) (hn : (cs.map Prod.fst).Nodup)
    (h : (i, t) ∈ cs) :
    ObjectAt (layOffs base offs cs) (head ++ layText cs ++ tail) i t := by
  obtain ⟨k, hk⟩ := List.mem_iff_getElem?.mp h
  exact lay_at cs base offs head tail k i t hb hn hk

theorem pagesLayout_fst (pgs : List (List JSString)) : ∀ o : Nat,
    (pagesLayout o pgs).map Prod.fst = List.range' (o + 1) (2 * pgs.length) := by
  induction pgs with
  | nil => intro o; rfl
  | cons ops rest ih =>
    intro o
    simp only [pagesLayout, List.map_cons, ih, List.length_cons]
    rw [show 2 * (rest.length + 1) = 2 * rest.length + 1 + 1 by omega, List.range'_succ,
      List.range'_succ]

theorem fontsLayout_fst (fs : List Font) : ∀ o : Nat,
    (fontsLayout o fs).map Prod.fst = List.range' (o + 1) fs.length := by
  induction fs with
  | nil => intro o; rfl
  | cons f rest ih =>
    intro o
    simp only [fontsLayout, List.map_cons, ih, List.length_cons, List.range'_succ]

theorem bodyLayout_fst (L : Lib ν) (now : Clock) (d : Doc ν) (h : Ready d) :
    (bodyLayout L now d (pageList d)).map Prod.fst = writeOrder d.page := by
  simp only [bodyLayout, writeOrder, List.map_append, pagesLayout_fst, fontsLayout_fst,
    pageList_length, h.objectNumber, h.fonts, List.map_cons, List.map_nil, List.append_assoc,
    List.cons_append, List.nil_append]
  have e1 : 2 + 2 * d.page + 1 = 2 * d.page + 3 := by omega
  have e2 : 2 + 2 * d.page + 12 + 1 = 2 * d.page + 15 := by omega
  have e3 : 2 + 2 * d.page + 12 + 2 = 2 * d.page + 16 := by omega
  rw [e1, e2, e3]

theorem writeOrder_nodup (p : Nat) : (writeOrder p).Nodup := by
  have n1 : (List.range' 3 (2 * p)).Nodup := List.nodup_range' _ _
  have n2 : (List.range' (2 * p + 3) 12).Nodup := List.nodup_range' _ _
  simp only [writeOrder, List.nodup_append, List.nodup_cons, List.nodup_nil,
    List.mem_range'_1, List.mem_append, List.mem_cons, List.mem_singleton, List.not_mem_nil,
    List.Disjoint, or_false, not_false_eq_true, and_self, true_and, n1, n2]
  refine ⟨⟨?_, ⟨?_, ?_, trivial⟩, ?_⟩, ?_⟩ <;> intros <;> omega

theorem mem_writeOrder (p i : Nat) : i ∈ writeOrder p ↔ 1 ≤ i ∧ i ≤ 2 * p + 16 := by
  simp only [writeOrder, List.mem_range'_1, List.mem_append, List.mem_cons, List.mem_singleton,
    List.not_mem_nil, or_false]
  omega

/-! ## The objects of the first output -/

theorem built_objectAt (L : Lib ν) (now : Clock) (d : Doc ν) (h : Ready d) (i : Nat)
    (t : JSString) (hm : (i, t) ∈ bodyLayout L now d (pageList d)) :
    ObjectAt (built L now d (pageList d)).offsets (built L now d (pageList d)).buffer i t := by
  have hn : ((bodyLayout L now d (pageList d)).map Prod.fst).Nodup := by
    rw [bodyLayout_fst L now d h]; exact writeOrder_nodup _
  have := lay_at_mem (bodyLayout L now d (pageList d))
    (d.buffer ++ unlines [lit "%PDF-" ++ lit "1.3"]).length d.offsets
    (d.buffer ++ unlines [lit "%PDF-" ++ lit "1.3"])
    (unlines (xrefLines L (built L now d (pageList d)).offsets (built L now d (pageList d)).objectNumber) ++
      unlines (trailerLines (built L now d (pageList d)).objectNumber
        (d.buffer ++ unlines [lit "%PDF-" ++ lit "1.3"] ++
          layText (bodyLayout L now d (pageList d))).length))
    i t rfl hn hm
  simp only [built, ← List.append_assoc] at this ⊢
  exact this

theorem built_objectNumber (L : Lib ν) (now : Clock) (d : Doc ν) (h : Ready d) :
    (built L now d (pageList d)).objectNumber = 2 * d.page + 16 := by
  simp only [built, h.objectNumber, h.fonts]
  omega

theorem declLine_starts (i : Nat) (rest : List JSString) :
    declLine i <+: unlines ((natStr i ++ lit " 0 obj") :: rest) := by
  rw [unlines_cons]
  exact List.prefix_append _ _

theorem pagesLayout_decl (pgs : List (List JSString)) : ∀ (o : Nat),
    ∀ c ∈ pagesLayout o pgs, declLine c.1 <+: c.2 := by
  induction pgs with
  | nil => intro o c hc; simp [pagesLayout] at hc
  | cons ops rest ih =>
    intro o c hc
    simp only [pagesLayout, List.mem_cons] at hc
    rcases hc with rfl | rfl | hc
    · exact declLine_starts _ _
    · exact declLine_starts _ _
    · exact ih _ c hc

theorem fontsLayout_decl (fs : List Font) : ∀ (o : Nat),
    ∀ c ∈ fontsLayout o fs, declLine c.1 <+: c.2 := by
  induction fs with
  | nil => intro o c hc; simp [fontsLayout] at hc
  | cons f rest ih =>
    intro o c hc
    simp only [fontsLayout, List.mem_cons] at hc
    rcases hc with rfl | hc
    · exact declLine_starts _ _
    · exact ih _ c hc

theorem bodyLayout_decl (L : Lib ν) (now : Clock) (d : Doc ν) (pgs : List (List JSString)) :
    ∀ c ∈ bodyLayout L now d pgs, declLine c.1 <+: c.2 := by
  intro c hc
  simp only [bodyLayout, List.mem_append, List.mem_cons, List.mem_singleton,
    List.not_mem_nil, or_false] at hc
  rcases hc with (((hc | rfl) | hc) | rfl) | rfl | rfl
  · exact pagesLayout_decl _ _ c hc
  · exact declLine_starts 1 _
  · exact fontsLayout_decl _ _ c hc
  · exact declLine_starts 2 _
  · exact declLine_starts _ _
  · exact declLine_starts _ _

/-- C1: in the string the first `output()` returns, for every object number
`i` from 1 to the object counter, the text at index `offsets[i]` is the
declaration line `i 0 obj` followed by a newline. -/
theorem offsets_point_at_declarations (L : Lib ν) (orientation unit : Option JSString)
    (format : Option (FormatArg ν)) (calls : List (Call ν)) (now : Clock) (d0 : Doc ν)
    (hc : jsPDF L orientation unit format = .ok d0) :
    ∃ d d' s, run L d0 calls = .ok d ∧ output L now d = .ok (d', s) ∧
      ∀ i, 1 ≤ i → i ≤ d'.objectNumber →
        ∃ off, d'.offsets i = some off ∧ declLine i <+: s.drop off := by
  obtain ⟨d, hr, hd, _⟩ := run_ready L calls d0 (jsPDF_ready L orientation unit format d0 hc).1
  refine ⟨d, _, _, hr, output_ok L now d hd.live, ?_⟩
  intro i h1 h2
  rw [built_objectNumber L now d hd] at h2
  have hm : i ∈ (bodyLayout L now d (pageList d)).map Prod.fst := by
    rw [bodyLayout_fst L now d hd, mem_writeOrder]; exact ⟨h1, h2⟩
  obtain ⟨c, hc1, hc2⟩ := List.mem_map.mp hm
  obtain ⟨off, ho, hp⟩ := built_objectAt L now d hd c.1 c.2 hc1
  subst hc2
  exact ⟨off, ho, (bodyLayout_decl L now d _ c hc1).trans hp⟩

/-! ## The order of the offsets -/

theorem layText_take_lt (cs : Layout) : ∀ (k k' i : Nat) (t : JSString),
    cs[k]? = some (i, t) → t ≠ [] → k < k' →
    (layText (cs.take k)).length < (layText (cs.take k')).length := by
  induction cs with
  | nil => intro k _ _ _ h; simp at h
  | cons c cs ih =>
    intro k k' i t h ht hlt
    cases k' with
    | zero => omega
    | succ k' =>
      cases k with
      | zero =>
        simp only [List.getElem?_cons_zero, Option.some.injEq] at h
        subst h
        have : 0 < t.length := List.length_pos.mpr ht
        simp only [List.take_zero, layText_nil, List.length_nil, List.take_succ_cons, layText_cons,
          List.length_append]
        omega
      | succ k =>
        rw [List.getElem?_cons_succ] at h
        have := ih k k' i t h ht (by omega)
        simp only [List.take_succ_cons, layText_cons, List.length_append]
        omega

theorem lay_order (cs : Layout) (base : Nat) (offs : Sparse Nat) (k k' i j : Nat)
    (hn : (cs.map Prod.fst).Nodup) (hne : ∀ c ∈ cs, c.2 ≠ [])
    (hk : (cs.map Prod.fst)[k]? = some i) (hk' : (cs.map Prod.fst)[k']? = some j) (hlt : k < k') :
    OffsetLt (layOffs base offs cs) i j := by
  rw [List.getElem?_map] at hk hk'
  obtain ⟨c, hc, rfl⟩ := Option.map_eq_some'.mp hk
  obtain ⟨c', hc', rfl⟩ := Option.map_eq_some'.mp hk'
  refine ⟨_, _, layOffs_get cs base offs k c.1 c.2 hn hc, layOffs_get cs base offs k' c'.1 c'.2 hn hc', ?_⟩
  have := layText_take_lt cs k k' c.1 c.2 hc (hne c (List.mem_iff_getElem?.mpr ⟨k, hc⟩)) hlt
  omega

theorem unlines_cons_ne_nil (a : JSString) (rest : List JSString) : unlines (a :: rest) ≠ [] := by
  rw [unlines_cons]
  intro h
  have := congrArg List.length h
  simp [lit] at this

theorem bodyLayout_ne_nil (L : Lib ν) (now : Clock) (d : Doc ν) (pgs : List (List JSString)) :
    ∀ c ∈ bodyLayout L now d pgs, c.2 ≠ [] := by
  intro c hc h
  have := bodyLayout_decl L now d pgs c hc
  rw [h, List.prefix_nil] at this
  have := congrArg List.length this
  simp [declLine, lit] at this

theorem writeOrder_get (p k : Nat) :
    (writeOrder p)[k]? =
      if k < 2 * p then some (3 + k)
      else if k = 2 * p then some 1
      else if k < 2 * p + 13 then some (k + 2)
      else if k = 2 * p + 13 then some 2
      else if k = 2 * p + 14 then some (2 * p + 15)
      else if k = 2 * p + 15 then some (2 * p + 16)
      else none := by
  unfold writeOrder
  by_cases h1 : k < 2 * p
  · rw [if_pos h1, List.getElem?_append_left (by simpa using h1), List.getElem?_range' _ _ h1]
    simp
  · rw [if_neg h1, List.getElem?_append_right (by simp; omega), List.length_range']
    by_cases h2 : k = 2 * p
    · rw [if_pos h2, h2]; simp
    · rw [if_neg h2]
      obtain ⟨m, hm⟩ : ∃ m, k - 2 * p = m + 1 := ⟨k - 2 * p - 1, by omega⟩
      rw [hm, List.getElem?_cons_succ]
      by_cases h3 : k < 2 * p + 13
      · rw [if_pos h3, List.getElem?_append_left (by simp; omega),
          List.getElem?_range' _ _ (by omega)]
        simp; omega
      · rw [if_neg h3, List.getElem?_append_right (by simp; omega), List.length_range']
        by_cases h4 : k = 2 * p + 13
        · rw [if_pos h4]
          have : m - 12 = 0 := by omega
          rw [this]; rfl
        · rw [if_neg h4]
          by_cases h5 : k = 2 * p + 14
          · rw [if_pos h5]
            have : m - 12 = 1 := by omega
            rw [this]; rfl
          · rw [if_neg h5]
            by_cases h6 : k = 2 * p + 15
            · rw [if_pos h6]
              have : m - 12 = 2 := by omega
              rw [this]; rfl
            · rw [if_neg h6]
              obtain ⟨r, hr⟩ : ∃ r, m - 12 = r + 3 := ⟨m - 12 - 3, by omega⟩
              rw [hr]; rfl
theorem writeOrder_rank (p i : Nat) (h1 : 1 ≤ i) (h2 : i ≤ 2 * p + 16) :
    (writeOrder p)[rank p i]? = some i := by
  rw [writeOrder_get]
  generalize hk : rank p i = k
  have hr : (i = 1 ∧ k = 2 * p) ∨ (i = 2 ∧ k = 2 * p + 13) ∨
      (3 ≤ i ∧ i ≤ 2 * p + 2 ∧ k = i - 3) ∨ (2 * p + 3 ≤ i ∧ i ≤ 2 * p + 14 ∧ k = i - 2) ∨
      (2 * p + 15 ≤ i ∧ k = i - 1) := by
    subst hk; unfold rank; split_ifs <;> omega
  rcases hr with ⟨a, b⟩ | ⟨a, b⟩ | ⟨a, a', b⟩ | ⟨a, a', b⟩ | ⟨a, b⟩ <;>
    (split_ifs <;> first | omega | (simp only [Option.some.injEq]; omega))

theorem built_order (L : Lib ν) (now : Clock) (d : Doc ν) (h : Ready d) (i j : Nat)
    (hi : 1 ≤ i ∧ i ≤ 2 * d.page + 16) (hj : 1 ≤ j ∧ j ≤ 2 * d.page + 16)
    (hlt : rank d.page i < rank d.page j) :
    OffsetLt (built L now d (pageList d)).offsets i j := by
  have hn : ((bodyLayout L now d (pageList d)).map Prod.fst).Nodup := by
    rw [bodyLayout_fst L now d h]; exact writeOrder_nodup _
  exact lay_order _ _ _ (rank d.page i) (rank d.page j) i j hn (bodyLayout_ne_nil L now d _)
    (by rw [bodyLayout_fst L now d h]; exact writeOrder_rank _ _ hi.1 hi.2)
    (by rw [bodyLayout_fst L now d h]; exact writeOrder_rank _ _ hj.1 hj.2) hlt

/-! ## Pages -/

theorem ObjectAt.mono {offs : Sparse Nat} {s : JSString} {i : Nat} {t t' : JSString}
    (h : ObjectAt offs s i t) (hp : t' <+: t) : ObjectAt offs s i t' := by
  obtain ⟨off, h1, h2⟩ := h
  exact ⟨off, h1, hp.trans h2⟩

theorem foldl_append_flatMap {α : Type} (f : α → JSString) (xs : List α) : ∀ init : JSString,
    xs.foldl (fun acc x => acc ++ f x) init = init ++ xs.flatMap f := by
  induction xs with
  | nil => intro init; simp
  | cons x xs ih => intro init; simp [ih]

theorem kidsLine_eq (p : Nat) :
    kidsLine p = lit "/Kids [" ++ (List.range p).flatMap (fun i => natStr (3 + 2 * i) ++ lit " 0 R ") :=
  foldl_append_flatMap _ _ _

theorem pagesLayout_mem (pgs : List (List JSString)) : ∀ (o j : Nat) (ops : List JSString),
    pgs[j]? = some ops →
    (o + 1 + 2 * j, unlines (pageObject (o + 1 + 2 * j))) ∈ pagesLayout o pgs ∧
    (o + 2 + 2 * j, unlines (contentObject (o + 2 + 2 * j) ops)) ∈ pagesLayout o pgs := by
  induction pgs with
  | nil => intro _ j _ h; simp at h
  | cons p rest ih =>
    intro o j ops h
    cases j with
    | zero =>
      simp only [List.getElem?_cons_zero, Option.some.injEq] at h
      subst h
      simp [pagesLayout]
    | succ j =>
      rw [List.getElem?_cons_succ] at h
      obtain ⟨h1, h2⟩ := ih (o + 2) j ops h
      have e1 : o + 1 + 2 * (j + 1) = o + 2 + 1 + 2 * j := by omega
      have e2 : o + 2 + 2 * (j + 1) = o + 2 + 2 + 2 * j := by omega
      rw [e1, e2]
      simp only [pagesLayout, List.mem_cons]
      exact ⟨Or.inr (Or.inr h1), Or.inr (Or.inr h2)⟩

theorem pageList_get (d : Doc ν) (i : Nat) (ops : List JSString) (hi : i < d.page)
    (h : d.pages (i + 1) = some ops) : (pageList d)[i]? = some ops := by
  unfold pageList
  rw [List.getElem?_map, List.getElem?_range' _ _ hi]
  simp [Nat.add_comm, h]

theorem unlines_starts (a b : List JSString) : unlines a <+: unlines (a ++ b) := by
  rw [unlines_append]; exact List.prefix_append _ _

theorem mem_bodyLayout_pages (L : Lib ν) (now : Clock) (d : Doc ν) (pgs : List (List JSString))
    (c : Nat × JSString) (h : c ∈ pagesLayout d.objectNumber pgs) : c ∈ bodyLayout L now d pgs := by
  simp only [bodyLayout, List.mem_append]
  exact Or.inl (Or.inl (Or.inl (Or.inl h)))

theorem built_page (L : Lib ν) (now : Clock) (d : Doc ν) (h : Ready d) (i : Nat)
    (hi : i < d.page) :
    ∃ ops, d.pages (i + 1) = some ops ∧
      ObjectAt (built L now d (pageList d)).offsets (built L now d (pageList d)).buffer
        (3 + 2 * i) (unlines (pageObject (3 + 2 * i))) ∧
      ObjectAt (built L now d (pageList d)).offsets (built L now d (pageList d)).buffer
        (4 + 2 * i) (unlines (contentObject (4 + 2 * i) ops)) := by
  obtain ⟨ops, ho⟩ := Option.isSome_iff_exists.mp (h.live.pages (i + 1) (by omega) (by omega))
  obtain ⟨m1, m2⟩ := pagesLayout_mem (pageList d) d.objectNumber i ops (pageList_get d i ops hi ho)
  rw [h.objectNumber] at m1 m2
  have e1 : 2 + 1 + 2 * i = 3 + 2 * i := by omega
  have e2 : 2 + 2 + 2 * i = 4 + 2 * i := by omega
  rw [e1] at m1
  rw [e2] at m2
  refine ⟨ops, ho, built_objectAt L now d h _ _ (mem_bodyLayout_pages L now d _ _ ?_),
    built_objectAt L now d h _ _ (mem_bodyLayout_pages L now d _ _ ?_)⟩
  · rw [h.objectNumber]; exact m1
  · rw [h.objectNumber]; exact m2

theorem built_root (L : Lib ν) (now : Clock) (d : Doc ν) (h : Ready d) :
    ObjectAt (built L now d (pageList d)).offsets (built L now d (pageList d)).buffer 1
      (unlines (pagesRoot L d)) := by
  apply built_objectAt L now d h
  simp [bodyLayout]

/-- C3: at the first `output()` of a document with `p` pages, for every
`i < p` the Page dictionary of page `i + 1` is declared as object `3 + 2i` with
`/Contents` naming object `4 + 2i`, object `4 + 2i` is the stream whose body is
the page's operator list joined by newlines, and the Pages root lists the kids
`3 + 2i` for `i = 0 .. p - 1` in order with `/Count p`. -/
theorem page_objects_numbered (L : Lib ν) (orientation unit : Option JSString)
    (format : Option (FormatArg ν)) (calls : List (Call ν)) (now : Clock) (d0 : Doc ν)
    (hc : jsPDF L orientation unit format = .ok d0) :
    ∃ d d' s, run L d0 calls = .ok d ∧ output L now d = .ok (d', s) ∧
      (∀ i, i < d.page → ∃ ops, d.pages (i + 1) = some ops ∧
        ObjectAt d'.offsets s (3 + 2 * i)
          (unlines [natStr (3 + 2 * i) ++ lit " 0 obj", lit "<</Type /Page", lit "/Parent 1 0 R",
            lit "/Resources 2 0 R", lit "/Contents " ++ natStr (4 + 2 * i) ++ lit " 0 R>>",
            lit "endobj"]) ∧
        ObjectAt d'.offsets s (4 + 2 * i)
          (unlines [natStr (4 + 2 * i) ++ lit " 0 obj",
            lit "<</Length " ++ natStr ((lit "\n").intercalate ops).length ++ lit ">>",
            lit "stream", (lit "\n").intercalate ops, lit "endstream", lit "endobj"])) ∧
      ObjectAt d'.offsets s 1
        (unlines [lit "1 0 obj", lit "<</Type /Pages",
          lit "/Kids [" ++ (List.range d.page).flatMap (fun i => natStr (3 + 2 * i) ++ lit " 0 R ") ++
            lit "]",
          lit "/Count " ++ natStr d.page]) := by
  obtain ⟨d, hr, hd, _⟩ := run_ready L calls d0 (jsPDF_ready L orientation unit format d0 hc).1
  refine ⟨d, _, _, hr, output_ok L now d hd.live, ?_, ?_⟩
  · intro i hi
    obtain ⟨ops, ho, h1, h2⟩ := built_page L now d hd i hi
    have e : 3 + 2 * i + 1 = 4 + 2 * i := by omega
    simp only [pageObject, e] at h1
    exact ⟨ops, ho, h1, h2⟩
  · refine (built_root L now d hd).mono ?_
    have := unlines_starts [lit "1 0 obj", lit "<</Type /Pages", kidsLine d.page ++ lit "]",
      lit "/Count " ++ natStr d.page]
      [lit "/MediaBox [0 0 " ++ L.f2 (L.mul (toNum L d.pageWidth) d.k) ++ lit " " ++
        L.f2 (L.mul (toNum L d.pageHeight) d.k) ++ lit "]", lit ">>", lit "endobj"]
    simp only [pagesRoot, kidsLine_eq] at this ⊢
    exact this

/-! ## Cross-reference section and trailer -/

theorem built_offsets_defined (L : Lib ν) (now : Clock) (d : Doc ν) (h : Ready d) (i : Nat)
    (h1 : 1 ≤ i) (h2 : i ≤ 2 * d.page + 16) :
    ∃ off, (built L now d (pageList d)).offsets i = some off := by
  have hm : i ∈ (bodyLayout L now d (pageList d)).map Prod.fst := by
    rw [bodyLayout_fst L now d h, mem_writeOrder]; exact ⟨h1, h2⟩
  obtain ⟨c, hc1, hc2⟩ := List.mem_map.mp hm
  obtain ⟨off, ho, _⟩ := built_objectAt L now d h c.1 c.2 hc1
  subst hc2
  exact ⟨off, ho⟩

theorem built_buffer (L : Lib ν) (now : Clock) (d : Doc ν) (pgs : List (List JSString)) :
    (built L now d pgs).buffer =
      (d.buffer ++ unlines [lit "%PDF-" ++ lit "1.3"] ++ layText (bodyLayout L now d pgs)) ++
        unlines (xrefLines L (built L now d pgs).offsets (built L now d pgs).objectNumber) ++
        unlines (trailerLines (built L now d pgs).objectNumber
          (d.buffer ++ unlines [lit "%PDF-" ++ lit "1.3"] ++
            layText (bodyLayout L now d pgs)).length) := rfl

/-- C4: at the first `output()` of a document with `p` pages the
cross-reference section is the line `xref`, the header `0 <N+1>`, the free
entry of object 0, and then `N` entry lines, the `i`-th carrying `offsets[i]`
for `i = 1 .. N`, every `offsets[i]` being defined; and `N = 2p + 16`. -/
theorem xref_section (L : Lib ν) (orientation unit : Option JSString)
    (format : Option (FormatArg ν)) (calls : List (Call ν)) (now : Clock) (d0 : Doc ν)
    (hc : jsPDF L orientation unit format = .ok d0) :
    ∃ d d' s pre, run L d0 calls = .ok d ∧ output L now d = .ok (d', s) ∧
      s = pre ++
        unlines ([lit "xref", lit "0 " ++ natStr (d'.objectNumber + 1), lit "0000000000 65535 f "] ++
          (List.range' 1 d'.objectNumber).map (fun i => L.d10 (d'.offsets i) ++ lit " 00000 n ")) ++
        unlines (trailerLines d'.objectNumber pre.length) ∧
      (∀ i, 1 ≤ i → i ≤ d'.objectNumber → ∃ off, d'.offsets i = some off) ∧
      d'.objectNumber = 2 * d.page + 16 := by
  obtain ⟨d, hr, hd, _⟩ := run_ready L calls d0 (jsPDF_ready L orientation unit format d0 hc).1
  refine ⟨d, _, _, _, hr, output_ok L now d hd.live, built_buffer L now d _, ?_,
    built_objectNumber L now d hd⟩
  intro i h1 h2
  rw [built_objectNumber L now d hd] at h2
  exact built_offsets_defined L now d hd i h1 h2

/-- C6: at the first `output()` the trailer's `/Size` is `N + 1`, its `/Root`
names the object that holds the Catalog dictionary, its `/Info` names the
object that holds the Info dictionary, and the number after `startxref` is the
index in the output at which the line `xref` begins. -/
theorem trailer_section (L : Lib ν) (orientation unit : Option JSString)
    (format : Option (FormatArg ν)) (calls : List (Call ν)) (now : Clock) (d0 : Doc ν)
    (hc : jsPDF L orientation unit format = .ok d0) :
    ∃ d d' s pre, run L d0 calls = .ok d ∧ output L now d = .ok (d', s) ∧
      s = pre ++ unlines (xrefLines L d'.offsets d'.objectNumber) ++
        unlines [lit "trailer", lit "<<", lit "/Size " ++ natStr (d'.objectNumber + 1),
          lit "/Root " ++ natStr d'.objectNumber ++ lit " 0 R",
          lit "/Info " ++ natStr (d'.objectNumber - 1) ++ lit " 0 R", lit ">>",
          lit "startxref", natStr pre.length, lit "%%EOF"] ∧
      lit "xref" ++ lit "\n" <+: s.drop pre.length ∧
      ObjectAt d'.offsets s d'.objectNumber
        (unlines [natStr d'.objectNumber ++ lit " 0 obj", lit "<<", lit "/Type /Catalog"]) ∧
      ObjectAt d'.offsets s (d'.objectNumber - 1)
        (unlines [natStr (d'.objectNumber - 1) ++ lit " 0 obj", lit "<<",
          lit "/Producer (jsPDF " ++ lit "20120220" ++ lit ")"]) := by
  obtain ⟨d, hr, hd, _⟩ := run_ready L calls d0 (jsPDF_ready L orientation unit format d0 hc).1
  have hN : (built L now d (pageList d)).objectNumber = d.objectNumber + 2 * d.page + d.fonts.length + 2 := rfl
  refine ⟨d, _, _, _, hr, output_ok L now d hd.live, built_buffer L now d _, ?_, ?_, ?_⟩
  · rw [built_buffer]
    generalize d.buffer ++ unlines [lit "%PDF-" ++ lit "1.3"] ++
      layText (bodyLayout L now d (pageList d)) = pre
    rw [List.append_assoc, List.drop_left]
    simp only [xrefLines, List.cons_append, unlines_cons, List.append_assoc]
    exact List.prefix_append _ _
  · have hm : (d.objectNumber + 2 * d.page + d.fonts.length + 2,
        unlines (catalogObject (d.objectNumber + 2 * d.page + d.fonts.length + 2))) ∈
        bodyLayout L now d (pageList d) := by
      simp [bodyLayout]
    rw [hN]
    exact (built_objectAt L now d hd _ _ hm).mono (unlines_starts [_, _, _] _)
  · have hm : (d.objectNumber + 2 * d.page + d.fonts.length + 1,
        unlines (infoObject L now d.documentProperties
          (d.objectNumber + 2 * d.page + d.fonts.length + 1))) ∈
        bodyLayout L now d (pageList d) := by
      simp [bodyLayout]
    rw [hN, show d.objectNumber + 2 * d.page + d.fonts.length + 2 - 1 =
      d.objectNumber + 2 * d.page + d.fonts.length + 1 by omega]
    refine (built_objectAt L now d hd _ _ hm).mono ?_
    simp only [infoObject, infoLines, List.cons_append, List.nil_append, List.append_assoc]
    exact unlines_starts [_, _, _] _

/-- C5, as the code has it: after the first `output()` the offsets increase
with the object number from object 3 on; the two reserved objects are written
later than their numbers say, object 1 after the objects of the pages and
object 2 after the fonts. -/
theorem offsets_increasing_from_three (L : Lib ν) (orientation unit : Option JSString)
    (format : Option (FormatArg ν)) (calls : List (Call ν)) (now : Clock) (d0 : Doc ν)
    (hc : jsPDF L orientation unit format = .ok d0) :
    ∃ d d' s, run L d0 calls = .ok d ∧ output L now d = .ok (d', s) ∧
      (∀ i j, 3 ≤ i → i < j → j ≤ d'.objectNumber → OffsetLt d'.offsets i j) ∧
      (∀ i, 3 ≤ i → i ≤ 2 * d.page + 2 → OffsetLt d'.offsets i 1) ∧
      (∀ i, 2 * d.page + 3 ≤ i → i ≤ d'.objectNumber → OffsetLt d'.offsets 1 i) ∧
      (∀ i, 3 ≤ i → i ≤ 2 * d.page + 14 → OffsetLt d'.offsets i 2) ∧
      (∀ i, 2 * d.page + 15 ≤ i → i ≤ d'.objectNumber → OffsetLt d'.offsets 2 i) ∧
      OffsetLt d'.offsets 1 2 := by
  obtain ⟨d, hr, hd, _⟩ := run_ready L calls d0 (jsPDF_ready L orientation unit format d0 hc).1
  have hN := built_objectNumber L now d hd
  refine ⟨d, _, _, hr, output_ok L now d hd.live, ?_, ?_, ?_, ?_, ?_, ?_⟩
  · intro i j h1 h2 h3
    rw [hN] at h3
    exact built_order L now d hd i j ⟨by omega, by omega⟩ ⟨by omega, h3⟩
      (by unfold rank; split_ifs <;> omega)
  · intro i h1 h2
    exact built_order L now d hd i 1 ⟨by omega, by omega⟩ ⟨by omega, by omega⟩
      (by unfold rank; split_ifs <;> omega)
  · intro i h1 h2
    rw [hN] at h2
    exact built_order L now d hd 1 i ⟨by omega, by omega⟩ ⟨by omega, h2⟩
      (by unfold rank; split_ifs <;> omega)
  · intro i h1 h2
    exact built_order L now d hd i 2 ⟨by omega, by omega⟩ ⟨by omega, by omega⟩
      (by unfold rank; split_ifs <;> omega)
  · intro i h1 h2
    rw [hN] at h2
    exact built_order L now d hd 2 i ⟨by omega, by omega⟩ ⟨by omega, h2⟩
      (by unfold rank; split_ifs <;> omega)
  · exact built_order L now d hd 1 2 ⟨by omega, by omega⟩ ⟨by omega, by omega⟩
      (by unfold rank; split_ifs <;> omega)

/-! ## Escaping -/

theorem replaceAll_append (c : Nat) (r a b : JSString) :
    replaceAll c r (a ++ b) = replaceAll c r a ++ replaceAll c r b := by
  simp [replaceAll]

theorem pdfEscape_append (a b : JSString) : pdfEscape (a ++ b) = pdfEscape a ++ pdfEscape b := by
  simp [pdfEscape, replaceAll_append]

theorem pdfEscape_unit (c : Nat) : pdfEscape [c] = escapeUnit c := by
  unfold escapeUnit
  by_cases h1 : c = 92
  · subst h1; decide
  · by_cases h2 : c = 40
    · subst h2; decide
    · by_cases h3 : c = 41
      · subst h3; decide
      · simp [pdfEscape, replaceAll, h1, h2, h3]

theorem pdfEscape_flatMap (t : JSString) : pdfEscape t = t.flatMap escapeUnit := by
  induction t with
  | nil => rfl
  | cons c t ih =>
    have : c :: t = [c] ++ t := rfl
    rw [this, pdfEscape_append, pdfEscape_unit, ih]
    simp

theorem escapeUnit_length (c : Nat) :
    (escapeUnit c).length = 1 + (if isReserved c then 1 else 0) := by
  unfold escapeUnit isReserved
  by_cases h1 : c = 92
  · simp [h1]
  · by_cases h2 : c = 40
    · simp [h2]
    · by_cases h3 : c = 41
      · simp [h3]
      · simp [h1, h2, h3]

/-- C9: `pdfEscape` is the image of the text code unit by code unit, in
order: a backslash becomes two backslashes, `(` and `)` get a backslash in
front, everything else is copied; the length grows by the number of reserved
code units; and `a(b)c\d` becomes `a\(b\)c\\d`. -/
theorem pdfEscape_charwise (t : JSString) :
    pdfEscape t = t.flatMap escapeUnit ∧
    (pdfEscape t).length = t.length + t.countP isReserved ∧
    pdfEscape (lit "a(b)c\\d") = lit "a\\(b\\)c\\\\d" := by
  refine ⟨pdfEscape_flatMap t, ?_, by decide⟩
  rw [pdfEscape_flatMap]
  induction t with
  | nil => rfl
  | cons c t ih =>
    simp only [List.flatMap_cons, List.length_append, ih, escapeUnit_length, List.length_cons,
      List.countP_cons]
    split <;> omega

/-! ## The scale factor -/

theorem addFont_k (d : Doc ν) (a b c : JSString) : (addFont d a b c).k = d.k := rfl

theorem addFonts_k (d : Doc ν) : (addFonts d).k = d.k := by
  simp only [addFonts, addFont_k]

theorem out_k (d d' : Doc ν) (s : JSString) (h : out d s = .ok d') : d'.k = d.k := by
  unfold out at h
  split at h
  · split at h
    · cases h; rfl
    · cases h
  · cases h; rfl

theorem addPage_k (L : Lib ν) (d d' : Doc ν) (h : addPage' L d = .ok d') : d'.k = d.k := by
  simp only [addPage', bind, Except.bind] at h
  split at h
  · cases h
  · rename_i d1 h1
    rw [out_k _ _ _ h, out_k _ _ _ h1]
    rfl

theorem jsPDF_k (L : Lib ν) (orientation unit : Option JSString) (format : Option (FormatArg ν))
    (d : Doc ν) (h : jsPDF L orientation unit format = .ok d) :
    unitScale L (unit.getD (lit "mm")) = .ok d.k := by
  unfold jsPDF at h
  simp only [bind, Except.bind] at h
  split at h
  · cases h
  · rename_i k hk
    split at h
    · cases h
    · rw [hk, addPage_k L _ _ h, addFonts_k]

theorem jsPDF_succeeds (L : Lib ν) (orientation unit : Option JSString)
    (format : Option (FormatArg ν)) (k : ν) (hu : unitScale L (unit.getD (lit "mm")) = .ok k)
    (ho : validOrientation orientation) : ∃ d, jsPDF L orientation unit format = .ok d := by
  obtain ⟨size, hs⟩ : ∃ size, orient (orientation.getD (lit "p"))
      (formatSize L (format.getD (.str (lit "a4"))) k) = .ok size := by
    unfold validOrientation at ho
    simp only [List.mem_cons, List.mem_singleton, List.not_mem_nil, or_false] at ho
    unfold orient
    dsimp only
    by_cases h1 : toLowerCase (orientation.getD (lit "p")) = lit "p" ∨
        toLowerCase (orientation.getD (lit "p")) = lit "portrait"
    · rw [if_pos h1]; exact ⟨_, rfl⟩
    · rw [if_neg h1, if_pos (by tauto)]; exact ⟨_, rfl⟩
  unfold jsPDF
  simp only [bind, Except.bind, hu, hs]
  generalize hd0 : addFonts _ = d0
  have l0 : Live d0 := by
    subst hd0
    exact ⟨fun n h1 h2 => absurd (Nat.le_trans h1 h2) (Nat.not_succ_le_zero 0),
      fun h' => absurd (h' : (0 : Nat) = 2) (show ¬ ((0 : Nat) = 2) by decide)⟩
  obtain ⟨d', e, _⟩ := addPage_live L d0 l0
  exact ⟨d', e⟩

theorem unitScale_cases (L : Lib ν) (u : JSString) (k : ν) (h : unitScale L u = .ok k) :
    (u = lit "pt" ∧ k = L.dec 1 0) ∨ (u = lit "mm" ∧ k = L.div (L.dec 72 0) (L.dec 254 1)) ∨
    (u = lit "cm" ∧ k = L.div (L.dec 72 0) (L.dec 254 2)) ∨ (u = lit "in" ∧ k = L.dec 72 0) := by
  unfold unitScale at h
  split at h
  · cases h; exact Or.inl ⟨by assumption, rfl⟩
  · split at h
    · cases h; exact Or.inr (Or.inl ⟨by assumption, rfl⟩)
    · split at h
      · cases h; exact Or.inr (Or.inr (Or.inl ⟨by assumption, rfl⟩))
      · split at h
        · cases h; exact Or.inr (Or.inr (Or.inr ⟨by assumption, rfl⟩))
        · cases h

theorem unitScale_ok (L : Lib ν) (u : JSString) (h : u ∈ units) : ∃ k, unitScale L u = .ok k := by
  unfold unitScale
  simp only [units, List.mem_cons, List.mem_singleton, List.not_mem_nil, or_false] at h
  split
  · exact ⟨_, rfl⟩
  · split
    · exact ⟨_, rfl⟩
    · split
      · exact ⟨_, rfl⟩
      · split
        · exact ⟨_, rfl⟩
        · tauto

theorem unitScale_error (L : Lib ν) (u : JSString) (h : u ∉ units) :
    unitScale L u = .error .invalidUnit := by
  simp only [units, List.mem_cons, List.mem_singleton, List.not_mem_nil, or_false, not_or] at h
  simp [unitScale, h]

/-- C10: construction resolves the scale factor `k` as 1 for `pt`, 72/25.4
for `mm`, 72/2.54 for `cm` and 72 for `in` (an omitted unit is `mm`); a unit
that is none of the four makes construction fail with the invalid-unit error,
and with an orientation the constructor accepts, whatever the format,
construction returns a document if and only if the unit is one of the four. -/
theorem unit_scale_factor (L : Lib ν) (orientation unit : Option JSString)
    (format : Option (FormatArg ν)) :
    (∀ d, jsPDF L orientation unit format = .ok d →
      (unit.getD (lit "mm") = lit "pt" ∧ d.k = L.dec 1 0) ∨
      (unit.getD (lit "mm") = lit "mm" ∧ d.k = L.div (L.dec 72 0) (L.dec 254 1)) ∨
      (unit.getD (lit "mm") = lit "cm" ∧ d.k = L.div (L.dec 72 0) (L.dec 254 2)) ∨
      (unit.getD (lit "mm") = lit "in" ∧ d.k = L.dec 72 0)) ∧
    (unit.getD (lit "mm") ∉ units → jsPDF L orientation unit format = .error .invalidUnit) ∧
    (validOrientation orientation →
      ((∃ d, jsPDF L orientation unit format = .ok d) ↔ unit.getD (lit "mm") ∈ units)) := by
  refine ⟨fun d h => unitScale_cases L _ _ (jsPDF_k L orientation unit format d h), ?_, fun ho => ?_⟩
  · intro hu
    simp only [jsPDF, bind, Except.bind, unitScale_error L _ hu]
  · constructor
    · rintro ⟨d, hd⟩
      rcases unitScale_cases L _ _ (jsPDF_k L orientation unit format d hd) with h | h | h | h <;>
        simp [units, h.1]
    · intro hu
      obtain ⟨k, hk⟩ := unitScale_ok L _ hu
      exact jsPDF_succeeds L orientation unit format k hk ho

/-! ## After `output()` -/

theorem built_live (L : Lib ν) (now : Clock) (d : Doc ν) (pgs : List (List JSString))
    (h : Live d) : Live (built L now d pgs) :=
  ⟨h.pages, fun h' => absurd (h' : (3 : Nat) = 2) (show ¬ ((3 : Nat) = 2) by decide)⟩

theorem built_extends (L : Lib ν) (now : Clock) (d : Doc ν) (pgs : List (List JSString)) :
    d.buffer <+: (built L now d pgs).buffer ∧
      d.buffer.length < (built L now d pgs).buffer.length := by
  rw [built_buffer]
  constructor
  · simp only [List.append_assoc]
    exact List.prefix_append _ _
  · simp only [List.length_append, unlines_cons, lit, List.length_cons, String.toList,
      List.length_map]
    have : 0 < ("\n" : String).data.length := by decide
    omega

/-- C7, as the code has it: once `output()` has returned the state is 3 and
the string returned is kept at the start of the buffer. Every later call
succeeds and only appends to the buffer; after a later `addPage()` the buffer
stays the string returned; a second `output()` returns a longer string that
starts with the first. -/
theorem output_kept_as_prefix (L : Lib ν) (orientation unit : Option JSString)
    (format : Option (FormatArg ν)) (calls : List (Call ν)) (now : Clock) (d0 : Doc ν)
    (hc : jsPDF L orientation unit format = .ok d0) :
    ∃ d d1 s1, run L d0 calls = .ok d ∧ output L now d = .ok (d1, s1) ∧
      d1.state = 3 ∧ d1.buffer = s1 ∧
      (∀ later : List (Call ν), ∃ d2, run L d1 later = .ok d2 ∧ s1 <+: d2.buffer ∧
        ∀ now2 : Clock, ∃ d3 s3, output L now2 d2 = .ok (d3, s3) ∧
          s1 <+: s3 ∧ s1.length < s3.length) ∧
      (∀ later : List (Call ν), ∃ d2, run L d1 (.addPage :: later) = .ok d2 ∧ d2.buffer = s1) := by
  obtain ⟨d, hr, hd, _⟩ := run_ready L calls d0 (jsPDF_ready L orientation unit format d0 hc).1
  have l1 := built_live L now d (pageList d) hd.live
  refine ⟨d, _, _, hr, output_ok L now d hd.live, rfl, rfl, ?_, ?_⟩
  · intro later
    obtain ⟨d2, e2, l2, g2, _⟩ := run_live L later _ l1
    refine ⟨d2, e2, g2.buffer, fun now2 => ?_⟩
    refine ⟨_, _, output_ok L now2 d2 l2, ?_, ?_⟩
    · exact g2.buffer.trans (built_extends L now2 d2 _).1
    · exact Nat.lt_of_le_of_lt g2.buffer.length_le (built_extends L now2 d2 _).2
  · intro later
    obtain ⟨da, ea, la, _, _, sa, ba⟩ := addPage_live L _ l1
    obtain ⟨d2, e2, _, g2, _⟩ := run_live L later da la
    refine ⟨d2, ?_, ?_⟩
    · unfold run at e2 ⊢
      rw [List.foldlM_cons]
      show (addPage' L _ >>= _) = _
      rw [ea]
      exact e2
    · rw [(g2.stays sa).2, ba]

/-- C8, as the code has it: the constructor opens the first page, so a
document has one page more than `addPage()` was called; the first `output()`
writes the objects of that many pages right after the header, and the Pages
root lists that many kids, in creation order, with that `/Count`. -/
theorem pages_one_more_than_addPage (L : Lib ν) (orientation unit : Option JSString)
    (format : Option (FormatArg ν)) (calls : List (Call ν)) (now : Clock) (d0 : Doc ν)
    (hc : jsPDF L orientation unit format = .ok d0) :
    ∃ d d' s pgs rest, run L d0 calls = .ok d ∧ output L now d = .ok (d', s) ∧
      d.page = 1 + (calls.map Call.pagesAdded).sum ∧ pgs.length = d.page ∧
      s = unlines [lit "%PDF-" ++ lit "1.3"] ++ layText (pagesLayout 2 pgs) ++
        unlines [lit "1 0 obj", lit "<</Type /Pages",
          lit "/Kids [" ++ (List.range d.page).flatMap (fun i => natStr (3 + 2 * i) ++ lit " 0 R ") ++
            lit "]",
          lit "/Count " ++ natStr d.page] ++ rest := by
  obtain ⟨hd0, hp0⟩ := jsPDF_ready L orientation unit format d0 hc
  obtain ⟨d, hr, hd, hp⟩ := run_ready L calls d0 hd0
  have hpre : unlines [lit "%PDF-" ++ lit "1.3"] ++ layText (pagesLayout 2 (pageList d)) ++
      unlines [lit "1 0 obj", lit "<</Type /Pages",
        lit "/Kids [" ++ (List.range d.page).flatMap (fun i => natStr (3 + 2 * i) ++ lit " 0 R ") ++
          lit "]",
        lit "/Count " ++ natStr d.page] <+: (built L now d (pageList d)).buffer := by
    rw [built_buffer]
    simp only [bodyLayout, pagesRoot, kidsLine_eq, hd.buffer, hd.objectNumber, layText_append,
      layText_cons, layText_nil, unlines_cons, unlines_nil, List.append_assoc, List.nil_append,
      List.append_nil, List.cons_append]
    repeat (first | exact List.prefix_append _ _ | rw [List.prefix_append_right_inj])
  obtain ⟨rest, hrest⟩ := hpre
  exact ⟨d, _, _, pageList d, rest, hr, output_ok L now d hd.live, by rw [hp, hp0],
    pageList_length d, hrest.symm⟩


/-! ## What the calls keep -/

theorem bind_ok {α β : Type} (x : Except Err α) (f : α → Except Err β) (b : β)
    (h : (x >>= f) = .ok b) : ∃ a, x = .ok a ∧ f a = .ok b := by
  cases x with
  | error e => cases h
  | ok a => exact ⟨a, rfl, h⟩

theorem Keeps.same (d : Doc ν) : Keeps d d :=
  ⟨rfl, rfl, rfl, rfl, rfl, Or.inl rfl, Or.inl rfl⟩

theorem Keeps.chain {a b c : Doc ν} (h1 : Keeps a b) (h2 : Keeps b c) : Keeps a c :=
  ⟨h2.k.trans h1.k, h2.pageWidth.trans h1.pageWidth, h2.pageHeight.trans h1.pageHeight,
   h2.lineWidth.trans h1.lineWidth, h2.drawColor.trans h1.drawColor,
   h2.fontName.elim (fun e => h1.fontName.elim (fun e' => Or.inl (e.trans e'))
     (fun m => Or.inr (e ▸ m))) Or.inr,
   h2.fontType.elim (fun e => h1.fontType.elim (fun e' => Or.inl (e.trans e'))
     (fun m => Or.inr (e ▸ m))) Or.inr⟩

theorem out_keeps (d d' : Doc ν) (s : JSString) (h : out d s = .ok d') : Keeps d d' := by
  unfold out at h
  split at h
  · split at h
    · cases h; exact ⟨rfl, rfl, rfl, rfl, rfl, Or.inl rfl, Or.inl rfl⟩
    · cases h
  · cases h; exact ⟨rfl, rfl, rfl, rfl, rfl, Or.inl rfl, Or.inl rfl⟩

theorem out4_keeps (d d' : Doc ν) (a b c e : JSString)
    (h : (do
        let d ← out d a
        let d ← out d b
        let d ← out d c
        out d e) = .ok d') : Keeps d d' := by
  obtain ⟨d1, h1, h⟩ := bind_ok _ _ _ h
  obtain ⟨d2, h2, h⟩ := bind_ok _ _ _ h
  obtain ⟨d3, h3, h⟩ := bind_ok _ _ _ h
  exact (out_keeps _ _ _ h1).chain ((out_keeps _ _ _ h2).chain
    ((out_keeps _ _ _ h3).chain (out_keeps _ _ _ h)))

theorem addPage_keeps (L : Lib ν) (d d' : Doc ν) (h : addPage' L d = .ok d') : Keeps d d' := by
  obtain ⟨d1, h1, h⟩ := bind_ok _ _ _ h
  have hb : Keeps d (beginPage d) := ⟨rfl, rfl, rfl, rfl, rfl, Or.inl rfl, Or.inl rfl⟩
  exact hb.chain ((out_keeps _ _ _ h1).chain (out_keeps _ _ _ h))

theorem apply_keeps (L : Lib ν) (d d' : Doc ν) (c : Call ν) (h : c.apply L d = .ok d') :
    Keeps d d' := by
  cases c with
  | addPage => exact addPage_keeps L d d' h
  | text x y t => exact out_keeps _ _ _ h
  | line x1 y1 x2 y2 => exact out_keeps _ _ _ h
  | rect x y w hh style => exact out_keeps _ _ _ h
  | ellipse x y rx ry style => exact out4_keeps _ _ _ _ _ _ h
  | circle x y r style => exact out4_keeps _ _ _ _ _ _ h
  | setProperties p => cases h; exact ⟨rfl, rfl, rfl, rfl, rfl, Or.inl rfl, Or.inl rfl⟩
  | addImage => cases h; exact Keeps.same d
  | setFontSize size => cases h; exact ⟨rfl, rfl, rfl, rfl, rfl, Or.inl rfl, Or.inl rfl⟩
  | setFont name =>
    cases h
    unfold setFont
    dsimp only
    split
    · rename_i hm
      refine ⟨rfl, rfl, rfl, rfl, rfl, Or.inr ?_, Or.inl rfl⟩
      simp only [families, List.mem_cons, List.mem_singleton, List.not_mem_nil, or_false]
      tauto
    · exact Keeps.same d
  | setFontType type =>
    cases h
    unfold setFontType
    dsimp only
    split
    · rename_i hm
      refine ⟨rfl, rfl, rfl, rfl, rfl, Or.inl rfl, Or.inr ?_⟩
      simp only [styles, List.mem_cons, List.mem_singleton, List.not_mem_nil, or_false]
      tauto
    · exact Keeps.same d
  | setLineWidth width => exact out_keeps _ _ _ h
  | setDrawColor r g b => exact out_keeps _ _ _ h
  | setFillColor r g b => exact out_keeps _ _ _ h
  | setTextColor r g b => cases h; exact ⟨rfl, rfl, rfl, rfl, rfl, Or.inl rfl, Or.inl rfl⟩

theorem run_keeps (L : Lib ν) (calls : List (Call ν)) : ∀ (d d' : Doc ν),
    run L d calls = .ok d' → Keeps d d' := by
  induction calls with
  | nil => intro d d' h; cases h; exact Keeps.same d
  | cons c cs ih =>
    intro d d' h
    unfold run at h
    rw [List.foldlM_cons] at h
    obtain ⟨d1, h1, h⟩ := bind_ok _ _ _ h
    exact (apply_keeps L d d1 c h1).chain (ih d1 d' h)

/-! ## The constructed document -/

theorem addFonts_eq (d : Doc ν) (h : d.fonts = []) :
    addFonts d = { d with fonts := fontTable d.objectNumber } := by
  simp [addFonts, addFont, h, fontTable]

theorem jsPDF_fields (L : Lib ν) (orientation unit : Option JSString)
    (format : Option (FormatArg ν)) (d : Doc ν) (h : jsPDF L orientation unit format = .ok d) :
    orient (orientation.getD (lit "p")) (formatSize L (format.getD (.str (lit "a4"))) d.k) =
        .ok (d.pageWidth, d.pageHeight) ∧
      d.lineWidth = L.dec 200025 6 ∧ d.drawColor = lit "0 G" ∧ d.fonts = fontTable 2 ∧
      d.fontName ∈ families ∧ d.fontType ∈ styles := by
  have hk := jsPDF_k L orientation unit format d h
  unfold jsPDF at h
  simp only [bind, Except.bind] at h
  split at h
  · cases h
  · rename_i k hk'
    rw [hk] at hk'
    cases hk'
    split at h
    · cases h
    · rename_i size hs
      generalize hd0 : addFonts _ = d0 at h
      have hf := congrArg Doc.fonts hd0
      have h1 := congrArg Doc.lineWidth hd0
      have h2 := congrArg Doc.drawColor hd0
      have h3 := congrArg Doc.pageWidth hd0
      have h4 := congrArg Doc.pageHeight hd0
      have h5 := congrArg Doc.fontName hd0
      have h6 := congrArg Doc.fontType hd0
      have h7 := congrArg Doc.page hd0
      have h8 := congrArg Doc.state hd0
      rw [addFonts_eq _ rfl] at hf h1 h2 h3 h4 h5 h6 h7 h8
      dsimp only at hf h1 h2 h3 h4 h5 h6 h7 h8
      have hl : Live d0 :=
        ⟨fun n a1 a2 => absurd (Nat.le_trans a1 (h7 ▸ a2)) (Nat.not_succ_le_zero 0),
          fun h' => absurd (h8.trans h') (show ¬ ((0 : Nat) = 2) by decide)⟩
      obtain ⟨d', e, _, g, _⟩ := addPage_live L _ hl
      have hd : d' = d := Except.ok.inj (e.symm.trans h)
      subst hd
      have hkp := addPage_keeps L _ _ e
      refine ⟨?_, hkp.lineWidth.trans h1.symm, hkp.drawColor.trans h2.symm,
        g.fonts.trans hf.symm, ?_, ?_⟩
      · rw [hs, hkp.pageWidth, hkp.pageHeight, ← h3, ← h4]
      · rcases hkp.fontName with e' | m
        · rw [e', ← h5]; decide
        · exact m
      · rcases hkp.fontType with e' | m
        · rw [e', ← h6]; decide
        · exact m

/-! ## Calls while a page is open -/

theorem setAt_same {α : Type} (a : Sparse α) (i : Nat) (v : α) : setAt a i v i = some v := by
  simp [setAt]

theorem setAt_other {α : Type} (a : Sparse α) (i j : Nat) (v : α) (h : j ≠ i) :
    setAt a i v j = a j := by
  simp [setAt, h]

theorem setAt_setAt {α : Type} (a : Sparse α) (i : Nat) (v w : α) :
    setAt (setAt a i v) i w = setAt a i w := by
  funext j
  simp only [setAt]
  split <;> rfl

theorem withOps_withOps (d : Doc ν) (a b : List JSString) :
    withOps (withOps d a) b = withOps d b := by
  simp only [withOps, setAt_setAt]

theorem out_push (d : Doc ν) (s : JSString) (ops : List JSString) (hs : d.state = 2)
    (hp : d.pages d.page = some ops) : out d s = .ok (withOps d (ops ++ [s])) := by
  simp [out, hs, hp, withOps]

theorem out_push' (d : Doc ν) (s : JSString) (ops : List JSString) (hs : d.state = 2) :
    out (withOps d ops) s = .ok (withOps d (ops ++ [s])) := by
  rw [out_push (withOps d ops) s ops hs (setAt_same _ _ _), withOps_withOps]

theorem out4_push (d : Doc ν) (a b c e : JSString) (ops : List JSString) (hs : d.state = 2)
    (hp : d.pages d.page = some ops) :
    (do
      let d ← out d a
      let d ← out d b
      let d ← out d c
      out d e) = .ok (withOps d (ops ++ [a, b, c, e])) := by
  simp only [bind, Except.bind, out_push d a ops hs hp, out_push' d _ _ hs, List.append_assoc,
    List.singleton_append, List.cons_append, List.nil_append]

theorem addPage_eq (L : Lib ν) (d : Doc ν) :
    addPage' L d = .ok { d with
      page := d.page + 1
      state := 2
      pages := setAt d.pages (d.page + 1)
        [L.f2 (L.mul d.lineWidth d.k) ++ lit " w", d.drawColor] } := by
  have h1 : out (beginPage d) (L.f2 (L.mul d.lineWidth d.k) ++ lit " w") =
      .ok (withOps (beginPage d) ([] ++ [L.f2 (L.mul d.lineWidth d.k) ++ lit " w"])) :=
    out_push (beginPage d) _ [] rfl (setAt_same _ _ _)
  have h2 := out_push' (beginPage d) d.drawColor
    ([] ++ [L.f2 (L.mul d.lineWidth d.k) ++ lit " w"]) rfl
  simp only [addPage', bind, Except.bind]
  rw [show (beginPage d).lineWidth = d.lineWidth from rfl, show (beginPage d).k = d.k from rfl, h1]
  dsimp only
  rw [show (withOps (beginPage d) ([] ++ [L.f2 (L.mul d.lineWidth d.k) ++ lit " w"])).drawColor =
    d.drawColor from rfl, h2]
  simp only [withOps, beginPage, setAt_setAt, List.nil_append, List.singleton_append]


/-! ## Documents reached from the constructor -/

theorem ready_open (d : Doc ν) (h : Ready d) : ∃ ops, d.pages d.page = some ops :=
  Option.isSome_iff_exists.mp (h.live.pages d.page (h.live.current h.state) (Nat.le_refl _))

theorem run_append (L : Lib ν) (d : Doc ν) (a b : List (Call ν)) :
    run L d (a ++ b) = run L d a >>= fun d1 => run L d1 b := by
  unfold run
  rw [List.foldlM_append]

theorem run_single (L : Lib ν) (d : Doc ν) (c : Call ν) : run L d [c] = c.apply L d := by
  unfold run
  rw [List.foldlM_cons]
  cases c.apply L d <;> rfl

theorem run_reached (L : Lib ν) (orientation unit : Option JSString)
    (format : Option (FormatArg ν)) (calls : List (Call ν)) (d0 : Doc ν)
    (hc : jsPDF L orientation unit format = .ok d0) :
    ∃ d, run L d0 calls = .ok d ∧ Ready d ∧ Keeps d0 d ∧ d.fonts = fontTable 2 ∧
      d.page = 1 + (calls.map Call.pagesAdded).sum := by
  obtain ⟨hr, hp⟩ := jsPDF_ready L orientation unit format d0 hc
  obtain ⟨d, e, l, g, p⟩ := run_live L calls d0 hr.live
  exact ⟨d, e, hr.of_grows l g, run_keeps L calls d0 d e,
    g.fonts.trans (jsPDF_fields L orientation unit format d0 hc).2.2.2.1, hp ▸ p⟩

/-- C14 (amended): `addPage()` starts the new page with the line width and
draw colour the document was constructed with, whatever `setLineWidth` and
`setDrawColor` calls came before.  After any sequence of calls followed by
`addPage()`, the operator list of the new page is exactly the line-width
operator of `0.200025 * k` and the draw-colour operator `0 G`, and the lists of
the pages that existed are unchanged. -/
theorem addPage_restates_defaults (L : Lib ν) (orientation unit : Option JSString)
    (format : Option (FormatArg ν)) (calls : List (Call ν)) (d0 : Doc ν)
    (hc : jsPDF L orientation unit format = .ok d0) :
    ∃ d d', run L d0 calls = .ok d ∧ run L d0 (calls ++ [.addPage]) = .ok d' ∧
      unitScale L (unit.getD (lit "mm")) = .ok d'.k ∧
      d'.page = d.page + 1 ∧
      d'.pages d'.page = some [L.f2 (L.mul (L.dec 200025 6) d'.k) ++ lit " w", lit "0 G"] ∧
      ∀ n, n ≤ d.page → d'.pages n = d.pages n := by
  obtain ⟨d, e, _, hk, _, _⟩ := run_reached L orientation unit format calls d0 hc
  have hf := jsPDF_fields L orientation unit format d0 hc
  refine ⟨d, { d with
      page := d.page + 1
      state := 2
      pages := setAt d.pages (d.page + 1)
        [L.f2 (L.mul d.lineWidth d.k) ++ lit " w", d.drawColor] }, e, ?_, ?_, rfl, ?_, ?_⟩
  · rw [run_append, e]
    exact (run_single L d .addPage).trans (addPage_eq L d)
  · show unitScale L (unit.getD (lit "mm")) = .ok d.k
    rw [hk.k]
    exact jsPDF_k L orientation unit format d0 hc
  · show setAt d.pages (d.page + 1) _ (d.page + 1) = _
    rw [setAt_same, hk.lineWidth, hk.drawColor, hf.2.1, hf.2.2.1]
  · intro n hn
    exact setAt_other _ _ _ _ (by omega)

/-! ## The operators of the drawing calls -/

theorem paintOp_eq (style : Option JSString) :
    (if style = some (lit "F") then lit "f"
      else if style = some (lit "FD") ∨ style = some (lit "DF") then lit "B"
      else lit "S") = paintOp style := rfl

theorem rect_eq (L : Lib ν) (d : Doc ν) (ops : List JSString) (hs : d.state = 2)
    (hp : d.pages d.page = some ops) (x y w h : ν) (style : Option JSString) :
    rect L d x y w h style = .ok (withOps d (ops ++
      [L.f2 (L.mul x d.k) ++ lit " " ++ L.f2 (L.mul (L.sub (toNum L d.pageHeight) y) d.k) ++
        lit " " ++ L.f2 (L.mul w d.k) ++ lit " " ++ L.f2 (L.mul (L.neg h) d.k) ++ lit " re " ++
        paintOp style])) := by
  unfold rect
  rw [paintOp_eq]
  exact out_push d _ ops hs hp

theorem ellipse_eq (L : Lib ν) (d : Doc ν) (ops : List JSString) (hs : d.state = 2)
    (hp : d.pages d.page = some ops) (x y rx ry : ν) (style : Option JSString) :
    ∃ a b c pre, ellipse L d x y rx ry style =
      .ok (withOps d (ops ++ [a, b, c, pre ++ lit " c " ++ paintOp style])) := by
  unfold ellipse
  rw [paintOp_eq]
  exact ⟨_, _, _, _, out4_push d _ _ _ _ ops hs hp⟩

/-- C15: on a document reached from the constructor by any calls, `rect`
appends one operator that ends in ` re ` and the paint operator of the style,
`ellipse` appends four operators the last of which ends in ` c ` and the same
paint operator, and `circle` is `ellipse` with both radii equal.  The paint
operator is `f` for the style `F`, `B` for `FD` and for `DF`, and `S` for every
other style and for an omitted one. -/
theorem paint_operator_by_style (L : Lib ν) (orientation unit : Option JSString)
    (format : Option (FormatArg ν)) (calls : List (Call ν)) (d0 : Doc ν)
    (hc : jsPDF L orientation unit format = .ok d0) :
    ∃ d ops, run L d0 calls = .ok d ∧ d.pages d.page = some ops ∧
      (∀ x y w h style, rect L d x y w h style = .ok (withOps d (ops ++
        [L.f2 (L.mul x d.k) ++ lit " " ++ L.f2 (L.mul (L.sub (toNum L d.pageHeight) y) d.k) ++
          lit " " ++ L.f2 (L.mul w d.k) ++ lit " " ++ L.f2 (L.mul (L.neg h) d.k) ++
          lit " re " ++ paintOp style]))) ∧
      (∀ x y rx ry style, ∃ a b c pre, ellipse L d x y rx ry style =
        .ok (withOps d (ops ++ [a, b, c, pre ++ lit " c " ++ paintOp style]))) ∧
      (∀ x y r style, circle L d x y r style = ellipse L d x y r r style) ∧
      paintOp (some (lit "F")) = lit "f" ∧ paintOp (some (lit "FD")) = lit "B" ∧
      paintOp (some (lit "DF")) = lit "B" ∧ paintOp none = lit "S" ∧
      ∀ style, style ≠ lit "F" → style ≠ lit "FD" → style ≠ lit "DF" →
        paintOp (some style) = lit "S" := by
  obtain ⟨d, e, hr, _, _, _⟩ := run_reached L orientation unit format calls d0 hc
  obtain ⟨ops, hp⟩ := ready_open d hr
  refine ⟨d, ops, e, hp, fun x y w h style => rect_eq L d ops hr.state hp x y w h style,
    fun x y rx ry style => ellipse_eq L d ops hr.state hp x y rx ry style,
    fun _ _ _ _ => rfl, by decide, by decide, by decide, by decide, ?_⟩
  intro style h1 h2 h3
  unfold paintOp
  rw [if_neg (fun h => h1 (Option.some.inj h)),
    if_neg (fun h => h.elim (fun h => h2 (Option.some.inj h)) (fun h => h3 (Option.some.inj h)))]

theorem colorOp_eq (L : Lib ν) (r : ν) (g b : Option ν) (gray rgb : JSString) :
    (if (L.isZero r ∧ optIsZero L g ∧ optIsZero L b) ∨ g.isNone then
        L.f3 (L.div r (L.dec 255 0)) ++ gray
      else
        L.f3 (L.div r (L.dec 255 0)) ++ lit " " ++ L.f3 (L.div (optNum L g) (L.dec 255 0)) ++
          lit " " ++ L.f3 (L.div (optNum L b) (L.dec 255 0)) ++ rgb) =
      colorOp L r g b gray rgb := by
  unfold colorOp
  by_cases h : (L.isZero r ∧ optIsZero L g ∧ optIsZero L b) ∨ g.isNone
  · rw [if_pos h, if_pos (Or.symm h)]
  · rw [if_neg h, if_neg (fun h' => h (Or.symm h'))]

/-- C16: on a document reached from the constructor by any calls,
`setDrawColor` and `setFillColor` append exactly one operator to the current
page, the colour operator ending in `G` or `RG`, respectively `g` or `rg`, and
`setTextColor` stores the colour operator ending in `g` or `rg` as the text
colour and appends nothing.  The colour operator is the grey variant with the
one operand `r/255` when `g` is omitted or `r`, `g`, `b` are all zero, and
the RGB variant with the operands `r/255`, `g/255`, `b/255` otherwise. -/
theorem color_operator_variant (L : Lib ν) (orientation unit : Option JSString)
    (format : Option (FormatArg ν)) (calls : List (Call ν)) (d0 : Doc ν)
    (hc : jsPDF L orientation unit format = .ok d0) :
    ∃ d ops, run L d0 calls = .ok d ∧ d.pages d.page = some ops ∧
      (∀ r g b, setDrawColor L d r g b =
        .ok (withOps d (ops ++ [colorOp L r g b (lit " G") (lit " RG")]))) ∧
      (∀ r g b, setFillColor L d r g b =
        .ok (withOps d (ops ++ [colorOp L r g b (lit " g") (lit " rg")]))) ∧
      (∀ r g b, setTextColor L d r g b =
        { d with textColor := colorOp L r g b (lit " g") (lit " rg") }) ∧
      (∀ r b gray rgb, colorOp L r none b gray rgb = L.f3 (L.div r (L.dec 255 0)) ++ gray) ∧
      (∀ r g b gray rgb, L.isZero r = true → L.isZero g = true → L.isZero b = true →
        colorOp L r (some g) (some b) gray rgb = L.f3 (L.div r (L.dec 255 0)) ++ gray) ∧
      ∀ r g b gray rgb, ¬ (L.isZero r = true ∧ L.isZero g = true ∧ optIsZero L b = true) →
        colorOp L r (some g) b gray rgb =
          L.f3 (L.div r (L.dec 255 0)) ++ lit " " ++ L.f3 (L.div g (L.dec 255 0)) ++ lit " " ++
            L.f3 (L.div (optNum L b) (L.dec 255 0)) ++ rgb := by
  obtain ⟨d, e, hr, _, _, _⟩ := run_reached L orientation unit format calls d0 hc
  obtain ⟨ops, hp⟩ := ready_open d hr
  refine ⟨d, ops, e, hp, ?_, ?_, ?_, ?_, ?_, ?_⟩
  · intro r g b
    unfold setDrawColor
    dsimp only
    rw [colorOp_eq]
    exact out_push d _ ops hr.state hp
  · intro r g b
    unfold setFillColor
    dsimp only
    rw [colorOp_eq]
    exact out_push d _ ops hr.state hp
  · intro r g b
    unfold setTextColor
    dsimp only
    rw [colorOp_eq]
  · intro r b gray rgb
    simp [colorOp]
  · intro r g b gray rgb h1 h2 h3
    simp [colorOp, optIsZero, h1, h2, h3]
  · intro r g b gray rgb h
    unfold colorOp
    rw [if_neg]
    · rfl
    · intro h'
      rcases h' with h' | h'
      · cases h'
      · exact h h'

theorem intercalate_segments (xs : List JSString) (h : xs ≠ []) :
    lit "(" ++ (lit ") Tj\nT* (").intercalate xs ++ lit ") Tj" =
      (lit "\nT* ").intercalate (xs.map (fun s => lit "(" ++ s ++ lit ") Tj")) := by
  induction xs with
  | nil => exact absurd rfl h
  | cons x rest ih =>
    cases rest with
    | nil => simp [List.intercalate]
    | cons y rest =>
      have ih' := ih (List.cons_ne_nil _ _)
      have e1 : (lit ") Tj\nT* (").intercalate (x :: y :: rest) =
          x ++ lit ") Tj\nT* (" ++ (lit ") Tj\nT* (").intercalate (y :: rest) := by
        simp [List.intercalate, List.intersperse]
      have e2 : ∀ (a b : JSString) (r : List JSString), (lit "\nT* ").intercalate (a :: b :: r) =
          a ++ lit "\nT* " ++ (lit "\nT* ").intercalate (b :: r) := by
        intro a b r
        simp [List.intercalate, List.intersperse]
      rw [e1, List.map_cons, List.map_cons, e2,
        ← List.map_cons (fun s => lit "(" ++ s ++ lit ") Tj") y rest, ← ih']
      have e3 : lit ") Tj\nT* (" = lit ") Tj" ++ lit "\nT* " ++ lit "(" := by decide
      rw [e3]
      simp only [List.append_assoc]

/-- C17: on a document reached from the constructor by any calls,
`text(x, y, [s1, ..., sn])` appends exactly one operator, the head of the block
followed by `(`, the strings `pdfEscape(si)` joined by `) Tj`, newline, `T* (`,
then `) Tj`, newline and `ET`.  For a non-empty array the part between the head
and the closing `ET` line is the `n` segments `(pdfEscape(si)) Tj` joined by a
newline and `T* `, and for a one-element array `text(x, y, [s])` is
`text(x, y, s)`. -/
theorem text_lines_joined (L : Lib ν) (orientation unit : Option JSString)
    (format : Option (FormatArg ν)) (calls : List (Call ν)) (d0 : Doc ν)
    (hc : jsPDF L orientation unit format = .ok d0) :
    ∃ d ops, run L d0 calls = .ok d ∧ d.pages d.page = some ops ∧
      (∀ x y a, text L d x y (.lines a) = .ok (withOps d (ops ++
        [textHead L d x y ++ (lit "(" ++ (lit ") Tj\nT* (").intercalate (a.map pdfEscape) ++
          lit ") Tj") ++ lit "\nET"]))) ∧
      (∀ a : List JSString, a ≠ [] →
        lit "(" ++ (lit ") Tj\nT* (").intercalate (a.map pdfEscape) ++ lit ") Tj" =
          (lit "\nT* ").intercalate (a.map (fun s => lit "(" ++ pdfEscape s ++ lit ") Tj")) ∧
        (a.map (fun s => lit "(" ++ pdfEscape s ++ lit ") Tj")).length = a.length) ∧
      ∀ x y s, text L d x y (.lines [s]) = text L d x y (.str s) := by
  obtain ⟨d, e, hr, _, _, _⟩ := run_reached L orientation unit format calls d0 hc
  obtain ⟨ops, hp⟩ := ready_open d hr
  refine ⟨d, ops, e, hp, ?_, ?_, ?_⟩
  · intro x y a
    unfold text
    dsimp only
    rw [out_push d _ ops hr.state hp]
    have e1 : lit " Td\n(" = lit " Td\n" ++ lit "(" := by decide
    have e2 : lit ") Tj\nET" = lit ") Tj" ++ lit "\nET" := by decide
    rw [e1, e2]
    simp only [textHead, List.append_assoc]
  · intro a ha
    refine ⟨?_, List.length_map _ _⟩
    have := intercalate_segments (a.map pdfEscape) (by simpa using ha)
    rw [this, List.map_map]
    rfl
  · intro x y s
    unfold text
    simp [List.intercalate]

/-! ## The frame of a call -/

theorem withOps_frame (d : Doc ν) (ops new : List JSString) (hs : d.state = 2) :
    (withOps d (ops ++ new)).buffer = d.buffer ∧
      (withOps d (ops ++ new)).objectNumber = d.objectNumber ∧
      (withOps d (ops ++ new)).offsets = d.offsets ∧ (withOps d (ops ++ new)).state = 2 ∧
      (withOps d (ops ++ new)).page = d.page + 0 ∧
      (∀ n, n < d.page → (withOps d (ops ++ new)).pages n = d.pages n) ∧
      ∃ new', (withOps d (ops ++ new)).pages d.page = some (ops ++ new') :=
  ⟨rfl, rfl, rfl, hs, rfl, fun n hn => setAt_other _ _ _ _ (by omega), new, setAt_same _ _ _⟩

theorem same_pages_frame (d d' : Doc ν) (ops : List JSString) (hs : d.state = 2)
    (hp : d.pages d.page = some ops) (h1 : d'.buffer = d.buffer)
    (h2 : d'.objectNumber = d.objectNumber) (h3 : d'.offsets = d.offsets)
    (h4 : d'.state = d.state) (h5 : d'.page = d.page) (h6 : d'.pages = d.pages) :
    d'.buffer = d.buffer ∧ d'.objectNumber = d.objectNumber ∧ d'.offsets = d.offsets ∧
      d'.state = 2 ∧ d'.page = d.page + 0 ∧ (∀ n, n < d.page → d'.pages n = d.pages n) ∧
      ∃ new', d'.pages d.page = some (ops ++ new') :=
  ⟨h1, h2, h3, h4.trans hs, h5, fun n _ => by rw [h6], [], by rw [h6, hp, List.append_nil]⟩

theorem setFont_cases (d : Doc ν) (name : JSString) :
    setFont d name = d ∨ setFont d name = { d with fontName := toLowerCase name } := by
  unfold setFont
  dsimp only
  split
  · exact Or.inr rfl
  · exact Or.inl rfl

theorem setFontType_cases (d : Doc ν) (type : JSString) :
    setFontType d type = d ∨ setFontType d type = { d with fontType := toLowerCase type } := by
  unfold setFontType
  dsimp only
  split
  · exact Or.inr rfl
  · exact Or.inl rfl

theorem apply_open (L : Lib ν) (d : Doc ν) (c : Call ν) (ops : List JSString)
    (hs : d.state = 2) (hp : d.pages d.page = some ops) :
    ∃ d', c.apply L d = .ok d' ∧ d'.buffer = d.buffer ∧ d'.objectNumber = d.objectNumber ∧
      d'.offsets = d.offsets ∧ d'.state = 2 ∧ d'.page = d.page + c.pagesAdded ∧
      (∀ n, n < d.page → d'.pages n = d.pages n) ∧
      ∃ new, d'.pages d.page = some (ops ++ new) := by
  cases c with
  | addPage =>
    refine ⟨_, addPage_eq L d, rfl, rfl, rfl, rfl, rfl, fun n hn => setAt_other _ _ _ _ (by omega),
      [], ?_⟩
    rw [List.append_nil, ← hp]
    exact setAt_other _ _ _ _ (by omega)
  | text x y t => exact ⟨_, out_push d _ ops hs hp, withOps_frame d ops _ hs⟩
  | line x1 y1 x2 y2 => exact ⟨_, out_push d _ ops hs hp, withOps_frame d ops _ hs⟩
  | rect x y w hh style => exact ⟨_, out_push d _ ops hs hp, withOps_frame d ops _ hs⟩
  | ellipse x y rx ry style => exact ⟨_, out4_push d _ _ _ _ ops hs hp, withOps_frame d ops _ hs⟩
  | circle x y r style => exact ⟨_, out4_push d _ _ _ _ ops hs hp, withOps_frame d ops _ hs⟩
  | setProperties p =>
    exact ⟨_, rfl, same_pages_frame d _ ops hs hp rfl rfl rfl rfl rfl rfl⟩
  | addImage => exact ⟨_, rfl, same_pages_frame d _ ops hs hp rfl rfl rfl rfl rfl rfl⟩
  | setFontSize size =>
    exact ⟨_, rfl, same_pages_frame d _ ops hs hp rfl rfl rfl rfl rfl rfl⟩
  | setFont name =>
    refine ⟨_, rfl, ?_⟩
    rcases setFont_cases d name with h | h <;> rw [h] <;>
      exact same_pages_frame d _ ops hs hp rfl rfl rfl rfl rfl rfl
  | setFontType type =>
    refine ⟨_, rfl, ?_⟩
    rcases setFontType_cases d type with h | h <;> rw [h] <;>
      exact same_pages_frame d _ ops hs hp rfl rfl rfl rfl rfl rfl
  | setLineWidth width => exact ⟨_, out_push d _ ops hs hp, withOps_frame d ops _ hs⟩
  | setDrawColor r g b => exact ⟨_, out_push d _ ops hs hp, withOps_frame d ops _ hs⟩
  | setFillColor r g b => exact ⟨_, out_push d _ ops hs hp, withOps_frame d ops _ hs⟩
  | setTextColor r g b =>
    exact ⟨_, rfl, same_pages_frame d _ ops hs hp rfl rfl rfl rfl rfl rfl⟩

/-- C18: on a document reached from the constructor by any calls, before the
first `output()`, every call of a public method other than `output` succeeds
and leaves the buffer, the object counter and the offset table as they are
and the page open; the operator lists of the pages before the current one are
unchanged and the list of the current page is only extended at its end.  The
page count grows by one for `addPage()`, which leaves the list of every
existing page unchanged, and stays the same for every other call. -/
theorem calls_frame (L : Lib ν) (orientation unit : Option JSString)
    (format : Option (FormatArg ν)) (calls : List (Call ν)) (c : Call ν) (d0 : Doc ν)
    (hc : jsPDF L orientation unit format = .ok d0) :
    ∃ d d' ops new, run L d0 calls = .ok d ∧ c.apply L d = .ok d' ∧
      d.buffer = [] ∧ d.state = 2 ∧
      d'.buffer = d.buffer ∧ d'.objectNumber = d.objectNumber ∧ d'.offsets = d.offsets ∧
      d'.state = 2 ∧ d'.page = d.page + c.pagesAdded ∧
      (∀ n, n < d.page → d'.pages n = d.pages n) ∧
      d.pages d.page = some ops ∧ d'.pages d.page = some (ops ++ new) ∧
      (c.pagesAdded = 1 → new = []) := by
  obtain ⟨d, e, hr, _, _, _⟩ := run_reached L orientation unit format calls d0 hc
  obtain ⟨ops, hp⟩ := ready_open d hr
  obtain ⟨d', e', h1, h2, h3, h4, h5, h6, new, h7⟩ := apply_open L d c ops hr.state hp
  by_cases hn : c.pagesAdded = 1
  · refine ⟨d, d', ops, [], e, e', hr.buffer, hr.state, h1, h2, h3, h4, h5, h6, hp, ?_,
      fun _ => rfl⟩
    cases c <;> first | exact absurd hn Nat.zero_ne_one | skip
    rw [List.append_nil, ← hp]
    have : d' = _ := Except.ok.inj (e'.symm.trans (addPage_eq L d))
    rw [this]
    exact setAt_other _ _ _ _ (by omega)
  · exact ⟨d, d', ops, new, e, e', hr.buffer, hr.state, h1, h2, h3, h4, h5, h6, hp, h7,
      fun h => absurd h hn⟩

/-! ## The font lookup -/

theorem getFont_table (d : Doc ν) (hf : d.fonts = fontTable 2) (hn : d.fontName ∈ families)
    (ht : d.fontType ∈ styles) :
    (d.fonts.find? (fun f => f.fontName = d.fontName ∧ f.type = d.fontType)).isSome = true ∧
      getFont d =
        lit "F" ++ natStr (4 * indexIn families d.fontName + indexIn styles d.fontType + 1) := by
  unfold getFont
  rw [hf]
  generalize d.fontName = a at hn ⊢
  generalize d.fontType = b at ht ⊢
  simp only [families, styles, List.mem_cons, List.mem_singleton, List.not_mem_nil,
    or_false] at hn ht
  rcases hn with rfl | rfl | rfl <;> rcases ht with rfl | rfl | rfl | rfl <;> decide

/-- C19: on a document reached from the constructor by any calls, the
current family is one of the three families and the current style one of the
four styles, the font lookup finds an entry with that family and style among
the twelve registered fonts, and the key it returns is `F` followed by
`4 * f + s + 1`, with `f` the index of the family in (helvetica, courier,
times) and `s` the index of the style in (normal, bold, italic, bolditalic).
The keys of the registered fonts are `F1` to `F12`, pairwise distinct, and
`setFont` and `setFontType` keep the document as it is when the argument in
lower case is no family, respectively no style. -/
theorem font_lookup_finds_match (L : Lib ν) (orientation unit : Option JSString)
    (format : Option (FormatArg ν)) (calls : List (Call ν)) (d0 : Doc ν)
    (hc : jsPDF L orientation unit format = .ok d0) :
    ∃ d, run L d0 calls = .ok d ∧ d.fontName ∈ families ∧ d.fontType ∈ styles ∧
      (d.fonts.find? (fun f => f.fontName = d.fontName ∧ f.type = d.fontType)).isSome = true ∧
      getFont d =
        lit "F" ++ natStr (4 * indexIn families d.fontName + indexIn styles d.fontType + 1) ∧
      d.fonts.map Font.key = (List.range 12).map (fun i => lit "F" ++ natStr (i + 1)) ∧
      (d.fonts.map Font.key).Nodup ∧
      (∀ name, toLowerCase name ∉ families → setFont d name = d) ∧
      ∀ type, toLowerCase type ∉ styles → setFontType d type = d := by
  obtain ⟨d, e, _, hk, hf, _⟩ := run_reached L orientation unit format calls d0 hc
  have h0 := jsPDF_fields L orientation unit format d0 hc
  have hn : d.fontName ∈ families := hk.fontName.elim (fun e' => e' ▸ h0.2.2.2.2.1) id
  have ht : d.fontType ∈ styles := hk.fontType.elim (fun e' => e' ▸ h0.2.2.2.2.2) id
  obtain ⟨g1, g2⟩ := getFont_table d hf hn ht
  refine ⟨d, e, hn, ht, g1, g2, ?_, ?_, ?_, ?_⟩
  · rw [hf]; decide
  · rw [hf]; decide
  · intro name h
    unfold setFont
    dsimp only
    rw [if_neg]
    intro h'
    apply h
    simp only [families, List.mem_cons, List.mem_singleton, List.not_mem_nil, or_false]
    tauto
  · intro type h
    unfold setFontType
    dsimp only
    rw [if_neg]
    intro h'
    apply h
    simp only [styles, List.mem_cons, List.mem_singleton, List.not_mem_nil, or_false]
    tauto

/-! ## The first page -/

/-- C20: on a document reached from the constructor by any calls, before the
first `output()`, the page count is at least 1, the state is 2 and every page
from 1 to the page count has an operator list.  The first `output()`
succeeds; in its result the Catalog, the object with the highest number, holds
`/OpenAction [3 0 R /FitH null]`, and object 3 is the Page dictionary of the
first page, whose contents, object 4, are the operators of page 1. -/
theorem first_page_always_open (L : Lib ν) (orientation unit : Option JSString)
    (format : Option (FormatArg ν)) (calls : List (Call ν)) (now : Clock) (d0 : Doc ν)
    (hc : jsPDF L orientation unit format = .ok d0) :
    ∃ d d' s ops, run L d0 calls = .ok d ∧ 1 ≤ d.page ∧ d.state = 2 ∧
      (∀ n, 1 ≤ n → n ≤ d.page → ∃ o, d.pages n = some o) ∧
      output L now d = .ok (d', s) ∧
      ObjectAt d'.offsets s d'.objectNumber
        (unlines [natStr d'.objectNumber ++ lit " 0 obj", lit "<<", lit "/Type /Catalog",
          lit "/Pages 1 0 R", lit "/OpenAction [3 0 R /FitH null]"]) ∧
      d.pages 1 = some ops ∧
      ObjectAt d'.offsets s 3
        (unlines [lit "3 0 obj", lit "<</Type /Page", lit "/Parent 1 0 R",
          lit "/Resources 2 0 R", lit "/Contents 4 0 R>>", lit "endobj"]) ∧
      ObjectAt d'.offsets s 4
        (unlines [lit "4 0 obj",
          lit "<</Length " ++ natStr ((lit "\n").intercalate ops).length ++ lit ">>",
          lit "stream", (lit "\n").intercalate ops, lit "endstream", lit "endobj"]) := by
  obtain ⟨d, e, hr, _, _, hp⟩ := run_reached L orientation unit format calls d0 hc
  have h1 : 1 ≤ d.page := hr.live.current hr.state
  obtain ⟨ops, ho, p1, p2⟩ := built_page L now d hr 0 h1
  refine ⟨d, _, _, ops, e, h1, hr.state,
    fun n a b => Option.isSome_iff_exists.mp (hr.live.pages n a b),
    output_ok L now d hr.live, ?_, ho, p1, p2⟩
  have hm : ((built L now d (pageList d)).objectNumber,
      unlines (catalogObject (built L now d (pageList d)).objectNumber)) ∈
      bodyLayout L now d (pageList d) := by
    simp [bodyLayout, built]
  exact (built_objectAt L now d hr _ _ hm).mono (unlines_starts _
    [lit "/PageLayout /OneColumn", lit ">>", lit "endobj"])

/-! ## The page format -/

theorem pageFormats_named (L : Lib ν) (n : JSString) (h : n ∈ formatNames) :
    pageFormats L n = some (.num (L.dec (formatTable n).1.1 (formatTable n).1.2),
      .num (L.dec (formatTable n).2.1 (formatTable n).2.2)) := by
  simp only [formatNames, List.mem_cons, List.mem_singleton, List.not_mem_nil, or_false] at h
  rcases h with rfl | rfl | rfl | rfl | rfl <;> rfl

theorem formatSize_named (L : Lib ν) (name : JSString) (k : ν)
    (h : toLowerCase name ∈ formatNames) :
    formatSize L (.str name) k =
      (.num (L.div (L.dec (formatTable (toLowerCase name)).1.1
          (formatTable (toLowerCase name)).1.2) k),
        .num (L.div (L.dec (formatTable (toLowerCase name)).2.1
          (formatTable (toLowerCase name)).2.2) k)) := by
  unfold formatSize
  simp only [FormatArg.toString, pageFormats_named L _ h, toNum]

theorem mem_toLowerCase_comma (s : JSString) (h : 44 ∈ s) : 44 ∈ toLowerCase s := by
  unfold toLowerCase
  rw [List.mem_flatMap]
  exact ⟨44, h, by decide⟩

theorem pageFormats_comma (L : Lib ν) (n : JSString) (h : 44 ∈ n) : pageFormats L n = none := by
  have key : ∀ m : JSString, 44 ∉ m → n ≠ m := fun m hm e => hm (e ▸ h)
  unfold pageFormats
  rw [if_neg (key _ (by decide)), if_neg (key _ (by decide)), if_neg (key _ (by decide)),
    if_neg (key _ (by decide)), if_neg (key _ (by decide)), if_neg]
  intro h'
  rcases h' with h' | h'
  · exact key _ (by decide) h'
  · exact key _ (by decide) h'

theorem formatSize_pair (L : Lib ν) (w h : JSVal ν) (k : ν) :
    formatSize L (.arr [w, h]) k = (w, h) := by
  have hc : 44 ∈ toLowerCase ((FormatArg.arr [w, h]).toString L) := by
    apply mem_toLowerCase_comma
    simp [FormatArg.toString, List.intercalate, lit]
  unfold formatSize
  simp only [pageFormats_comma L _ hc]
  rfl

theorem orient_portrait (o : JSString) (size : JSVal ν × JSVal ν)
    (h : toLowerCase o ∈ [lit "p", lit "portrait"]) : orient o size = .ok size := by
  simp only [List.mem_cons, List.mem_singleton, List.not_mem_nil, or_false] at h
  unfold orient
  dsimp only
  rw [if_pos h]

theorem orient_landscape (o : JSString) (size : JSVal ν × JSVal ν)
    (h : toLowerCase o ∈ [lit "l", lit "landscape"]) : orient o size = .ok (size.2, size.1) := by
  simp only [List.mem_cons, List.mem_singleton, List.not_mem_nil, or_false] at h
  unfold orient
  dsimp only
  rw [if_neg, if_pos h]
  intro h'
  rcases h with h | h <;> rcases h' with h' | h' <;> rw [h] at h' <;> exact absurd h' (by decide)

theorem scale_of_doc (L : Lib ν) (orientation unit : Option JSString)
    (format : Option (FormatArg ν)) (d0 : Doc ν) (hc : jsPDF L orientation unit format = .ok d0) :
    d0.k = L.dec 1 0 ∨ d0.k = L.div (L.dec 72 0) (L.dec 254 1) ∨
      d0.k = L.div (L.dec 72 0) (L.dec 254 2) ∨ d0.k = L.dec 72 0 := by
  rcases unitScale_cases L _ _ (jsPDF_k L orientation unit format d0 hc) with h | h | h | h
  · exact Or.inl h.2
  · exact Or.inr (Or.inl h.2)
  · exact Or.inr (Or.inr (Or.inl h.2))
  · exact Or.inr (Or.inr (Or.inr h.2))

theorem root_of_reached (L : Lib ν) (now : Clock) (d0 d : Doc ν) (hr : Ready d) (hk : Keeps d0 d) :
    ∃ d' s, output L now d = .ok (d', s) ∧
      ObjectAt d'.offsets s 1
        (unlines [lit "1 0 obj", lit "<</Type /Pages", kidsLine d.page ++ lit "]",
          lit "/Count " ++ natStr d.page,
          lit "/MediaBox [0 0 " ++ L.f2 (L.mul (toNum L d0.pageWidth) d0.k) ++ lit " " ++
            L.f2 (L.mul (toNum L d0.pageHeight) d0.k) ++ lit "]"]) := by
  refine ⟨_, _, output_ok L now d hr.live, ?_⟩
  have := (built_root L now d hr).mono (unlines_starts
    [lit "1 0 obj", lit "<</Type /Pages", kidsLine d.page ++ lit "]",
      lit "/Count " ++ natStr d.page,
      lit "/MediaBox [0 0 " ++ L.f2 (L.mul (toNum L d.pageWidth) d.k) ++ lit " " ++
        L.f2 (L.mul (toNum L d.pageHeight) d.k) ++ lit "]"] [lit ">>", lit "endobj"])
  rw [hk.pageWidth, hk.pageHeight, hk.k] at this
  exact this

/-- C12: with arithmetic that is exact for the four scale factors, for a
format name of the table (a3, a4, a5, letter, legal, in any case) and every
unit the constructor accepts: in portrait orientation the page width and height
times `k` are the width and height of the table entry, and the first `output()`
after any calls writes them in the `/MediaBox` line of object 1; in landscape
orientation the width times `k` is the height of the table entry and the
height times `k` its width, and these are written in the `/MediaBox` line. -/
theorem named_format_box (L : Lib ν) (hx : ExactScale L) (orientation unit : Option JSString)
    (name : JSString) (calls : List (Call ν)) (now : Clock) (d0 : Doc ν)
    (hn : toLowerCase name ∈ formatNames)
    (hc : jsPDF L orientation unit (some (.str name)) = .ok d0) :
    ∃ d d' s, run L d0 calls = .ok d ∧ output L now d = .ok (d', s) ∧
      d.k = d0.k ∧ d.pageWidth = d0.pageWidth ∧ d.pageHeight = d0.pageHeight ∧
      (toLowerCase (orientation.getD (lit "p")) ∈ [lit "p", lit "portrait"] →
        L.mul (toNum L d0.pageWidth) d0.k =
            L.dec (formatTable (toLowerCase name)).1.1 (formatTable (toLowerCase name)).1.2 ∧
          L.mul (toNum L d0.pageHeight) d0.k =
            L.dec (formatTable (toLowerCase name)).2.1 (formatTable (toLowerCase name)).2.2 ∧
          ObjectAt d'.offsets s 1
            (unlines [lit "1 0 obj", lit "<</Type /Pages", kidsLine d.page ++ lit "]",
              lit "/Count " ++ natStr d.page,
              lit "/MediaBox [0 0 " ++
                L.f2 (L.dec (formatTable (toLowerCase name)).1.1
                  (formatTable (toLowerCase name)).1.2) ++ lit " " ++
                L.f2 (L.dec (formatTable (toLowerCase name)).2.1
                  (formatTable (toLowerCase name)).2.2) ++ lit "]"])) ∧
      (toLowerCase (orientation.getD (lit "p")) ∈ [lit "l", lit "landscape"] →
        L.mul (toNum L d0.pageWidth) d0.k =
            L.dec (formatTable (toLowerCase name)).2.1 (formatTable (toLowerCase name)).2.2 ∧
          L.mul (toNum L d0.pageHeight) d0.k =
            L.dec (formatTable (toLowerCase name)).1.1 (formatTable (toLowerCase name)).1.2 ∧
          ObjectAt d'.offsets s 1
            (unlines [lit "1 0 obj", lit "<</Type /Pages", kidsLine d.page ++ lit "]",
              lit "/Count " ++ natStr d.page,
              lit "/MediaBox [0 0 " ++
                L.f2 (L.dec (formatTable (toLowerCase name)).2.1
                  (formatTable (toLowerCase name)).2.2) ++ lit " " ++
                L.f2 (L.dec (formatTable (toLowerCase name)).1.1
                  (formatTable (toLowerCase name)).1.2) ++ lit "]"])) := by
  obtain ⟨d, e, hr, hk, _, _⟩ := run_reached L orientation unit _ calls d0 hc
  obtain ⟨d', s, eo, ho⟩ := root_of_reached L now d0 d hr hk
  have hf := (jsPDF_fields L orientation unit _ d0 hc).1
  have hs := scale_of_doc L orientation unit _ d0 hc
  rw [Option.getD_some, formatSize_named L name d0.k hn] at hf
  refine ⟨d, d', s, e, eo, hk.k, hk.pageWidth, hk.pageHeight, ?_, ?_⟩
  · intro hp
    rw [orient_portrait _ _ hp] at hf
    have h1 : d0.pageWidth = _ := (congrArg Prod.fst (Except.ok.inj hf)).symm
    have h2 : d0.pageHeight = _ := (congrArg Prod.snd (Except.ok.inj hf)).symm
    have e1 := hx (L.dec (formatTable (toLowerCase name)).1.1
      (formatTable (toLowerCase name)).1.2) d0.k hs
    have e2 := hx (L.dec (formatTable (toLowerCase name)).2.1
      (formatTable (toLowerCase name)).2.2) d0.k hs
    rw [h1, h2] at ho ⊢
    simp only [toNum] at ho ⊢
    rw [e1, e2] at ho ⊢
    exact ⟨rfl, rfl, ho⟩
  · intro hp
    rw [orient_landscape _ _ hp] at hf
    have h1 : d0.pageWidth = _ := (congrArg Prod.fst (Except.ok.inj hf)).symm
    have h2 : d0.pageHeight = _ := (congrArg Prod.snd (Except.ok.inj hf)).symm
    have e1 := hx (L.dec (formatTable (toLowerCase name)).1.1
      (formatTable (toLowerCase name)).1.2) d0.k hs
    have e2 := hx (L.dec (formatTable (toLowerCase name)).2.1
      (formatTable (toLowerCase name)).2.2) d0.k hs
    rw [h1, h2] at ho ⊢
    simp only [toNum] at ho ⊢
    rw [e1, e2] at ho ⊢
    exact ⟨rfl, rfl, ho⟩

/-- C13 (amended): an explicit format pair `[w, h]` of numbers is stored as
it is, in the unit of the document, and converted to points on output like
every other length: for every unit the constructor accepts, a portrait document
has page width `w` and page height `h`, and the first `output()` after any
calls writes `w * k` and `h * k` in the `/MediaBox` line of object 1, with `k`
the scale factor of the unit. -/
theorem explicit_format_in_user_units (L : Lib ν) (orientation unit : Option JSString)
    (w h : ν) (calls : List (Call ν)) (now : Clock) (d0 : Doc ν)
    (hp : toLowerCase (orientation.getD (lit "p")) ∈ [lit "p", lit "portrait"])
    (hc : jsPDF L orientation unit (some (.arr [.num w, .num h])) = .ok d0) :
    ∃ d d' s, run L d0 calls = .ok d ∧ output L now d = .ok (d', s) ∧
      unitScale L (unit.getD (lit "mm")) = .ok d0.k ∧ d.k = d0.k ∧
      d0.pageWidth = .num w ∧ d0.pageHeight = .num h ∧
      d.pageWidth = .num w ∧ d.pageHeight = .num h ∧
      ObjectAt d'.offsets s 1
        (unlines [lit "1 0 obj", lit "<</Type /Pages", kidsLine d.page ++ lit "]",
          lit "/Count " ++ natStr d.page,
          lit "/MediaBox [0 0 " ++ L.f2 (L.mul w d0.k) ++ lit " " ++ L.f2 (L.mul h d0.k) ++
            lit "]"]) := by
  obtain ⟨d, e, hr, hk, _, _⟩ := run_reached L orientation unit _ calls d0 hc
  obtain ⟨d', s, eo, ho⟩ := root_of_reached L now d0 d hr hk
  have hf := (jsPDF_fields L orientation unit _ d0 hc).1
  rw [Option.getD_some, formatSize_pair, orient_portrait _ _ hp] at hf
  have h1 : d0.pageWidth = .num w := (congrArg Prod.fst (Except.ok.inj hf)).symm
  have h2 : d0.pageHeight = .num h := (congrArg Prod.snd (Except.ok.inj hf)).symm
  rw [h1, h2] at ho
  exact ⟨d, d', s, e, eo, jsPDF_k L orientation unit _ d0 hc, hk.k, h1, h2,
    hk.pageWidth.trans h1, hk.pageHeight.trans h2, ho⟩

/-- C11: the constructor rejects no format argument.  With the default
orientation and unit it returns a document for every format, in every
library; in the executable instance the name `foo` gives a document whose page
width and height are the strings `f` and `o`, a one-element array gives its
element and an undefined height, and a pair with a non-numeric element is
stored as it is. -/
theorem format_never_rejected (L : Lib ν) (format : FormatArg ν) :
    (∃ d, jsPDF L none none (some format) = .ok d) ∧
      (jsPDF stdLib (some (lit "p")) (some (lit "mm")) (some (.str (lit "foo")))).toOption.map
          (fun d => (d.pageWidth, d.pageHeight)) =
        some (.str (lit "f"), .str (lit "o")) ∧
      (jsPDF stdLib (some (lit "p")) (some (lit "mm")) (some (.arr [.num (num 5)]))).toOption.map
          (fun d => (d.pageWidth, d.pageHeight)) =
        some (.num (num 5), .undefined) ∧
      (jsPDF stdLib (some (lit "p")) (some (lit "mm"))
          (some (.arr [.str (lit "a"), .num (num 5)]))).toOption.map
          (fun d => (d.pageWidth, d.pageHeight)) =
        some (.str (lit "a"), .num (num 5)) :=
  ⟨jsPDF_succeeds L none none (some format) _ rfl (by decide), by decide, by decide, by decide⟩


/-! ## The theorems at sample inputs -/

set_option maxRecDepth 100000

theorem sample_constructed : ∃ d0, jsPDF stdLib none none none = .ok d0 :=
  jsPDF_succeeds stdLib none none none _ rfl (by decide)

theorem offsets_point_at_declarations_witness :
    ∃ d0, jsPDF stdLib none none none = .ok d0 ∧
      ∃ d d' s, run stdLib d0 sampleCalls = .ok d ∧ output stdLib sampleClock d = .ok (d', s) ∧
        ∀ i, 1 ≤ i → i ≤ d'.objectNumber →
          ∃ off, d'.offsets i = some off ∧ declLine i <+: s.drop off := by
  obtain ⟨d0, h⟩ := sample_constructed
  exact ⟨d0, h, offsets_point_at_declarations stdLib none none none sampleCalls sampleClock d0 h⟩

theorem page_objects_numbered_witness :
    ∃ d0, jsPDF stdLib none none none = .ok d0 ∧
      ∃ d d' s, run stdLib d0 sampleCalls = .ok d ∧ output stdLib sampleClock d = .ok (d', s) ∧
        (∀ i, i < d.page → ∃ ops, d.pages (i + 1) = some ops ∧
          ObjectAt d'.offsets s (3 + 2 * i)
            (unlines [natStr (3 + 2 * i) ++ lit " 0 obj", lit "<</Type /Page", lit "/Parent 1 0 R",
              lit "/Resources 2 0 R", lit "/Contents " ++ natStr (4 + 2 * i) ++ lit " 0 R>>",
              lit "endobj"]) ∧
          ObjectAt d'.offsets s (4 + 2 * i)
            (unlines [natStr (4 + 2 * i) ++ lit " 0 obj",
              lit "<</Length " ++ natStr ((lit "\n").intercalate ops).length ++ lit ">>",
              lit "stream", (lit "\n").intercalate ops, lit "endstream", lit "endobj"])) ∧
        ObjectAt d'.offsets s 1
          (unlines [lit "1 0 obj", lit "<</Type /Pages",
            lit "/Kids [" ++
              (List.range d.page).flatMap (fun i => natStr (3 + 2 * i) ++ lit " 0 R ") ++ lit "]",
            lit "/Count " ++ natStr d.page]) := by
  obtain ⟨d0, h⟩ := sample_constructed
  exact ⟨d0, h, page_objects_numbered stdLib none none none sampleCalls sampleClock d0 h⟩

theorem xref_section_witness :
    ∃ d0, jsPDF stdLib none none none = .ok d0 ∧
      ∃ d d' s pre, run stdLib d0 sampleCalls = .ok d ∧
        output stdLib sampleClock d = .ok (d', s) ∧
        s = pre ++
          unlines ([lit "xref", lit "0 " ++ natStr (d'.objectNumber + 1),
              lit "0000000000 65535 f "] ++
            (List.range' 1 d'.objectNumber).map
              (fun i => stdLib.d10 (d'.offsets i) ++ lit " 00000 n ")) ++
          unlines (trailerLines d'.objectNumber pre.length) ∧
        (∀ i, 1 ≤ i → i ≤ d'.objectNumber → ∃ off, d'.offsets i = some off) ∧
        d'.objectNumber = 2 * d.page + 16 := by
  obtain ⟨d0, h⟩ := sample_constructed
  exact ⟨d0, h, xref_section stdLib none none none sampleCalls sampleClock d0 h⟩

theorem trailer_section_witness :
    ∃ d0, jsPDF stdLib none none none = .ok d0 ∧
      ∃ d d' s pre, run stdLib d0 sampleCalls = .ok d ∧
        output stdLib sampleClock d = .ok (d', s) ∧
        s = pre ++ unlines (xrefLines stdLib d'.offsets d'.objectNumber) ++
          unlines [lit "trailer", lit "<<", lit "/Size " ++ natStr (d'.objectNumber + 1),
            lit "/Root " ++ natStr d'.objectNumber ++ lit " 0 R",
            lit "/Info " ++ natStr (d'.objectNumber - 1) ++ lit " 0 R", lit ">>",
            lit "startxref", natStr pre.length, lit "%%EOF"] ∧
        lit "xref" ++ lit "\n" <+: s.drop pre.length ∧
        ObjectAt d'.offsets s d'.objectNumber
          (unlines [natStr d'.objectNumber ++ lit " 0 obj", lit "<<", lit "/Type /Catalog"]) ∧
        ObjectAt d'.offsets s (d'.objectNumber - 1)
          (unlines [natStr (d'.objectNumber - 1) ++ lit " 0 obj", lit "<<",
            lit "/Producer (jsPDF " ++ lit "20120220" ++ lit ")"]) := by
  obtain ⟨d0, h⟩ := sample_constructed
  exact ⟨d0, h, trailer_section stdLib none none none sampleCalls sampleClock d0 h⟩

/-- C5, as stated, fails on a new document: object 1 is written after
objects 3 and 4, so `offsets[1] = 145` is above `offsets[3] = 9`. -/
theorem offsets_not_increasing :
    (firstOutput stdLib none none none [] sampleClock).toOption.map
        (fun r => (r.1.objectNumber, r.1.offsets 1, r.1.offsets 3)) =
      some (18, some 145, some 9) ∧ ¬ ((145 : Nat) < 9) := by
  decide

theorem offsets_increasing_from_three_witness :
    ∃ d0, jsPDF stdLib none none none = .ok d0 ∧
      ∃ d d' s, run stdLib d0 sampleCalls = .ok d ∧ output stdLib sampleClock d = .ok (d', s) ∧
        (∀ i j, 3 ≤ i → i < j → j ≤ d'.objectNumber → OffsetLt d'.offsets i j) ∧
        (∀ i, 3 ≤ i → i ≤ 2 * d.page + 2 → OffsetLt d'.offsets i 1) ∧
        (∀ i, 2 * d.page + 3 ≤ i → i ≤ d'.objectNumber → OffsetLt d'.offsets 1 i) ∧
        (∀ i, 3 ≤ i → i ≤ 2 * d.page + 14 → OffsetLt d'.offsets i 2) ∧
        (∀ i, 2 * d.page + 15 ≤ i → i ≤ d'.objectNumber → OffsetLt d'.offsets 2 i) ∧
        OffsetLt d'.offsets 1 2 := by
  obtain ⟨d0, h⟩ := sample_constructed
  exact ⟨d0, h, offsets_increasing_from_three stdLib none none none sampleCalls sampleClock d0 h⟩

/-- C8, as stated, fails: a new document on which `addPage()` is called
twice, with one `rect` after each call, has three pages, and the Pages root
written by `output()` lists three kids with `/Count 3`. -/
theorem two_addPage_three_pages :
    (firstOutput stdLib none none none twoPages sampleClock).toOption.map
        (fun r => (r.1.page, r.1.offsets 1, (r.2.drop 481).take 59)) =
      some (3, some 481,
        lit "1 0 obj\n<</Type /Pages\n/Kids [3 0 R 5 0 R 7 0 R ]\n/Count 3\n") := by
  decide

theorem pages_one_more_than_addPage_witness :
    ∃ d0, jsPDF stdLib none none none = .ok d0 ∧
      ∃ d d' s pgs rest, run stdLib d0 twoPages = .ok d ∧
        output stdLib sampleClock d = .ok (d', s) ∧
        d.page = 1 + (twoPages.map Call.pagesAdded).sum ∧ pgs.length = d.page ∧
        s = unlines [lit "%PDF-" ++ lit "1.3"] ++ layText (pagesLayout 2 pgs) ++
          unlines [lit "1 0 obj", lit "<</Type /Pages",
            lit "/Kids [" ++
              (List.range d.page).flatMap (fun i => natStr (3 + 2 * i) ++ lit " 0 R ") ++ lit "]",
            lit "/Count " ++ natStr d.page] ++ rest := by
  obtain ⟨d0, h⟩ := sample_constructed
  exact ⟨d0, h, pages_one_more_than_addPage stdLib none none none twoPages sampleClock d0 h⟩

theorem output_kept_as_prefix_witness :
    ∃ d0, jsPDF stdLib none none none = .ok d0 ∧
      ∃ d d1 s1, run stdLib d0 sampleCalls = .ok d ∧
        output stdLib sampleClock d = .ok (d1, s1) ∧ d1.state = 3 ∧ d1.buffer = s1 ∧
        (∀ later : List (Call (Option Frac)), ∃ d2, run stdLib d1 later = .ok d2 ∧
          s1 <+: d2.buffer ∧
          ∀ now2 : Clock, ∃ d3 s3, output stdLib now2 d2 = .ok (d3, s3) ∧
            s1 <+: s3 ∧ s1.length < s3.length) ∧
        (∀ later : List (Call (Option Frac)), ∃ d2,
          run stdLib d1 (.addPage :: later) = .ok d2 ∧ d2.buffer = s1) := by
  obtain ⟨d0, h⟩ := sample_constructed
  exact ⟨d0, h, output_kept_as_prefix stdLib none none none sampleCalls sampleClock d0 h⟩

/-- C7, as stated, fails on a new document: after `output()` has returned
the string `s1` the state is 3, a later `setLineWidth(1)` appends its operator
line to the buffer, and a second `output()` returns another string. -/
theorem buffer_changes_after_output :
    ∃ d0 d1 s1 d2 d3 s3, jsPDF stdLib none none none = .ok d0 ∧
      output stdLib sampleClock d0 = .ok (d1, s1) ∧ d1.state = 3 ∧
      setLineWidth stdLib d1 (num 1) = .ok d2 ∧ d2.buffer = s1 ++ lit "2.83 w\n" ∧
      d2.buffer ≠ s1 ∧
      output stdLib sampleClock d1 = .ok (d3, s3) ∧ s3 ≠ s1 := by
  obtain ⟨d0, h⟩ := sample_constructed
  have hl := (jsPDF_ready stdLib none none none d0 h).1.live
  have hk : stdLib.div (stdLib.dec 72 0) (stdLib.dec 254 1) = d0.k :=
    Except.ok.inj (jsPDF_k stdLib none none none d0 h)
  have h3 : (built stdLib sampleClock d0 (pageList d0)).state ≠ 2 :=
    show (3 : Nat) ≠ 2 by decide
  have hb : ({ built stdLib sampleClock d0 (pageList d0) with
      buffer := (built stdLib sampleClock d0 (pageList d0)).buffer ++
        unlines [stdLib.f2 (stdLib.mul (num 1) (built stdLib sampleClock d0 (pageList d0)).k) ++
          lit " w"] } : Doc (Option Frac)).buffer =
      (built stdLib sampleClock d0 (pageList d0)).buffer ++ lit "2.83 w\n" := by
    show _ ++ unlines [stdLib.f2 (stdLib.mul (num 1) d0.k) ++ lit " w"] = _
    rw [← hk]
    congr 1
  refine ⟨d0, _, _, _, _, _, h, output_ok stdLib sampleClock d0 hl, rfl,
    out_ok _ _ h3, hb, ?_,
    output_ok stdLib sampleClock _ (built_live stdLib sampleClock d0 _ hl), ?_⟩
  · rw [hb]
    intro hc
    have := congrArg List.length hc
    simp [lit] at this
  · intro hc
    have := (built_extends stdLib sampleClock
      (built stdLib sampleClock d0 (pageList d0))
      (pageList (built stdLib sampleClock d0 (pageList d0)))).2
    rw [hc] at this
    exact Nat.lt_irrefl _ this


theorem addPage_restates_defaults_witness :
    ∃ d0, jsPDF stdLib none none none = .ok d0 ∧
      ∃ d d', run stdLib d0 sampleCalls = .ok d ∧
        run stdLib d0 (sampleCalls ++ [.addPage]) = .ok d' ∧
        unitScale stdLib ((none : Option JSString).getD (lit "mm")) = .ok d'.k ∧
        d'.page = d.page + 1 ∧
        d'.pages d'.page =
          some [stdLib.f2 (stdLib.mul (stdLib.dec 200025 6) d'.k) ++ lit " w", lit "0 G"] ∧
        ∀ n, n ≤ d.page → d'.pages n = d.pages n := by
  obtain ⟨d0, h⟩ := sample_constructed
  exact ⟨d0, h, addPage_restates_defaults stdLib none none none sampleCalls d0 h⟩

/-- C14, as stated, fails on a new document in millimetres: after
`setLineWidth(5)`, `setDrawColor(255, 0, 0)` and `addPage()` the operator list
of the new page is `0.57 w`, `0 G`, the values of the constructor, while the
operators of the two calls, `14.17 w` and `1.000 0.000 0.000 RG`, stand at the
end of page 1 only. -/
theorem addPage_ignores_settings :
    (jsPDF stdLib none none none >>= fun d =>
        run stdLib d [.setLineWidth (num 5),
          .setDrawColor (num 255) (some (num 0)) (some (num 0)), .addPage]).toOption.map
        (fun d => (d.page, d.pages 2, d.pages 1)) =
      some (2, some [lit "0.57 w", lit "0 G"],
        some [lit "0.57 w", lit "0 G", lit "14.17 w", lit "1.000 0.000 0.000 RG"]) := by
  decide

theorem paint_operator_by_style_witness :
    ∃ d0, jsPDF stdLib none none none = .ok d0 ∧
      ∃ d ops, run stdLib d0 sampleCalls = .ok d ∧ d.pages d.page = some ops ∧
        (∀ x y w h style, rect stdLib d x y w h style = .ok (withOps d (ops ++
          [stdLib.f2 (stdLib.mul x d.k) ++ lit " " ++
            stdLib.f2 (stdLib.mul (stdLib.sub (toNum stdLib d.pageHeight) y) d.k) ++
            lit " " ++ stdLib.f2 (stdLib.mul w d.k) ++ lit " " ++
            stdLib.f2 (stdLib.mul (stdLib.neg h) d.k) ++ lit " re " ++ paintOp style]))) ∧
        (∀ x y rx ry style, ∃ a b c pre, ellipse stdLib d x y rx ry style =
          .ok (withOps d (ops ++ [a, b, c, pre ++ lit " c " ++ paintOp style]))) ∧
        (∀ x y r style, circle stdLib d x y r style = ellipse stdLib d x y r r style) ∧
        paintOp (some (lit "F")) = lit "f" ∧ paintOp (some (lit "FD")) = lit "B" ∧
        paintOp (some (lit "DF")) = lit "B" ∧ paintOp none = lit "S" ∧
        ∀ style, style ≠ lit "F" → style ≠ lit "FD" → style ≠ lit "DF" →
          paintOp (some style) = lit "S" := by
  obtain ⟨d0, h⟩ := sample_constructed
  exact ⟨d0, h, paint_operator_by_style stdLib none none none sampleCalls d0 h⟩

theorem color_operator_variant_witness :
    ∃ d0, jsPDF stdLib none none none = .ok d0 ∧
      ∃ d ops, run stdLib d0 sampleCalls = .ok d ∧ d.pages d.page = some ops ∧
        (∀ r g b, setDrawColor stdLib d r g b =
          .ok (withOps d (ops ++ [colorOp stdLib r g b (lit " G") (lit " RG")]))) ∧
        (∀ r g b, setFillColor stdLib d r g b =
          .ok (withOps d (ops ++ [colorOp stdLib r g b (lit " g") (lit " rg")]))) ∧
        (∀ r g b, setTextColor stdLib d r g b =
          { d with textColor := colorOp stdLib r g b (lit " g") (lit " rg") }) ∧
        (∀ r b gray rgb, colorOp stdLib r none b gray rgb =
          stdLib.f3 (stdLib.div r (stdLib.dec 255 0)) ++ gray) ∧
        (∀ r g b gray rgb, stdLib.isZero r = true → stdLib.isZero g = true →
          stdLib.isZero b = true →
          colorOp stdLib r (some g) (some b) gray rgb =
            stdLib.f3 (stdLib.div r (stdLib.dec 255 0)) ++ gray) ∧
        ∀ r g b gray rgb,
          ¬ (stdLib.isZero r = true ∧ stdLib.isZero g = true ∧ optIsZero stdLib b = true) →
          colorOp stdLib r (some g) b gray rgb =
            stdLib.f3 (stdLib.div r (stdLib.dec 255 0)) ++ lit " " ++
              stdLib.f3 (stdLib.div g (stdLib.dec 255 0)) ++ lit " " ++
              stdLib.f3 (stdLib.div (optNum stdLib b) (stdLib.dec 255 0)) ++ rgb := by
  obtain ⟨d0, h⟩ := sample_constructed
  exact ⟨d0, h, color_operator_variant stdLib none none none sampleCalls d0 h⟩

theorem text_lines_joined_witness :
    ∃ d0, jsPDF stdLib none none none = .ok d0 ∧
      ∃ d ops, run stdLib d0 sampleCalls = .ok d ∧ d.pages d.page = some ops ∧
        (∀ x y a, text stdLib d x y (.lines a) = .ok (withOps d (ops ++
          [textHead stdLib d x y ++
            (lit "(" ++ (lit ") Tj\nT* (").intercalate (a.map pdfEscape) ++ lit ") Tj") ++
            lit "\nET"]))) ∧
        (∀ a : List JSString, a ≠ [] →
          lit "(" ++ (lit ") Tj\nT* (").intercalate (a.map pdfEscape) ++ lit ") Tj" =
            (lit "\nT* ").intercalate
              (a.map (fun s => lit "(" ++ pdfEscape s ++ lit ") Tj")) ∧
          (a.map (fun s => lit "(" ++ pdfEscape s ++ lit ") Tj")).length = a.length) ∧
        ∀ x y s, text stdLib d x y (.lines [s]) = text stdLib d x y (.str s) := by
  obtain ⟨d0, h⟩ := sample_constructed
  exact ⟨d0, h, text_lines_joined stdLib none none none sampleCalls d0 h⟩

theorem calls_frame_witness :
    ∃ d0, jsPDF stdLib none none none = .ok d0 ∧
      ∃ d d' ops new, run stdLib d0 sampleCalls = .ok d ∧
        (Call.rect (num 10) (num 20) (num 30) (num 40) none).apply stdLib d = .ok d' ∧
        d.buffer = [] ∧ d.state = 2 ∧
        d'.buffer = d.buffer ∧ d'.objectNumber = d.objectNumber ∧ d'.offsets = d.offsets ∧
        d'.state = 2 ∧
        d'.page = d.page + (Call.rect (num 10) (num 20) (num 30) (num 40) none).pagesAdded ∧
        (∀ n, n < d.page → d'.pages n = d.pages n) ∧
        d.pages d.page = some ops ∧ d'.pages d.page = some (ops ++ new) ∧
        ((Call.rect (num 10) (num 20) (num 30) (num 40) none).pagesAdded = 1 → new = []) := by
  obtain ⟨d0, h⟩ := sample_constructed
  exact ⟨d0, h, calls_frame stdLib none none none sampleCalls _ d0 h⟩

theorem font_lookup_finds_match_witness :
    ∃ d0, jsPDF stdLib none none none = .ok d0 ∧
      ∃ d, run stdLib d0
          [.setFont (lit "Times"), .setFontType (lit "BOLD"), .setFont (lit "comic")] = .ok d ∧
        d.fontName ∈ families ∧ d.fontType ∈ styles ∧
        (d.fonts.find? (fun f => f.fontName = d.fontName ∧ f.type = d.fontType)).isSome = true ∧
        getFont d =
          lit "F" ++
            natStr (4 * indexIn families d.fontName + indexIn styles d.fontType + 1) ∧
        d.fonts.map Font.key = (List.range 12).map (fun i => lit "F" ++ natStr (i + 1)) ∧
        (d.fonts.map Font.key).Nodup ∧
        (∀ name, toLowerCase name ∉ families → setFont d name = d) ∧
        ∀ type, toLowerCase type ∉ styles → setFontType d type = d := by
  obtain ⟨d0, h⟩ := sample_constructed
  exact ⟨d0, h, font_lookup_finds_match stdLib none none none _ d0 h⟩

theorem first_page_always_open_witness :
    ∃ d0, jsPDF stdLib none none none = .ok d0 ∧
      ∃ d d' s ops, run stdLib d0 sampleCalls = .ok d ∧ 1 ≤ d.page ∧ d.state = 2 ∧
        (∀ n, 1 ≤ n → n ≤ d.page → ∃ o, d.pages n = some o) ∧
        output stdLib sampleClock d = .ok (d', s) ∧
        ObjectAt d'.offsets s d'.objectNumber
          (unlines [natStr d'.objectNumber ++ lit " 0 obj", lit "<<", lit "/Type /Catalog",
            lit "/Pages 1 0 R", lit "/OpenAction [3 0 R /FitH null]"]) ∧
        d.pages 1 = some ops ∧
        ObjectAt d'.offsets s 3
          (unlines [lit "3 0 obj", lit "<</Type /Page", lit "/Parent 1 0 R",
            lit "/Resources 2 0 R", lit "/Contents 4 0 R>>", lit "endobj"]) ∧
        ObjectAt d'.offsets s 4
          (unlines [lit "4 0 obj",
            lit "<</Length " ++ natStr ((lit "\n").intercalate ops).length ++ lit ">>",
            lit "stream", (lit "\n").intercalate ops, lit "endstream", lit "endobj"]) := by
  obtain ⟨d0, h⟩ := sample_constructed
  exact ⟨d0, h, first_page_always_open stdLib none none none sampleCalls sampleClock d0 h⟩

theorem exactScale_ratLib : ExactScale ratLib := by
  intro a k hk
  have h0 : k ≠ 0 := by
    rcases hk with h | h | h | h <;> rw [h] <;> norm_num [ratLib]
  exact div_mul_cancel₀ a h0

theorem named_format_box_witness :
    ExactScale ratLib ∧ toLowerCase (lit "A4") ∈ formatNames ∧
      ∃ d0, jsPDF ratLib none none (some (.str (lit "A4"))) = .ok d0 ∧
        ∃ d d' s, run ratLib d0 [] = .ok d ∧ output ratLib sampleClock d = .ok (d', s) ∧
          d.k = d0.k ∧ d.pageWidth = d0.pageWidth ∧ d.pageHeight = d0.pageHeight ∧
          (toLowerCase ((none : Option JSString).getD (lit "p")) ∈ [lit "p", lit "portrait"] →
            ratLib.mul (toNum ratLib d0.pageWidth) d0.k =
                ratLib.dec (formatTable (toLowerCase (lit "A4"))).1.1
                  (formatTable (toLowerCase (lit "A4"))).1.2 ∧
              ratLib.mul (toNum ratLib d0.pageHeight) d0.k =
                ratLib.dec (formatTable (toLowerCase (lit "A4"))).2.1
                  (formatTable (toLowerCase (lit "A4"))).2.2 ∧
              ObjectAt d'.offsets s 1
                (unlines [lit "1 0 obj", lit "<</Type /Pages", kidsLine d.page ++ lit "]",
                  lit "/Count " ++ natStr d.page,
                  lit "/MediaBox [0 0 " ++
                    ratLib.f2 (ratLib.dec (formatTable (toLowerCase (lit "A4"))).1.1
                      (formatTable (toLowerCase (lit "A4"))).1.2) ++ lit " " ++
                    ratLib.f2 (ratLib.dec (formatTable (toLowerCase (lit "A4"))).2.1
                      (formatTable (toLowerCase (lit "A4"))).2.2) ++ lit "]"])) ∧
          (toLowerCase ((none : Option JSString).getD (lit "p")) ∈ [lit "l", lit "landscape"] →
            ratLib.mul (toNum ratLib d0.pageWidth) d0.k =
                ratLib.dec (formatTable (toLowerCase (lit "A4"))).2.1
                  (formatTable (toLowerCase (lit "A4"))).2.2 ∧
              ratLib.mul (toNum ratLib d0.pageHeight) d0.k =
                ratLib.dec (formatTable (toLowerCase (lit "A4"))).1.1
                  (formatTable (toLowerCase (lit "A4"))).1.2 ∧
              ObjectAt d'.offsets s 1
                (unlines [lit "1 0 obj", lit "<</Type /Pages", kidsLine d.page ++ lit "]",
                  lit "/Count " ++ natStr d.page,
                  lit "/MediaBox [0 0 " ++
                    ratLib.f2 (ratLib.dec (formatTable (toLowerCase (lit "A4"))).2.1
                      (formatTable (toLowerCase (lit "A4"))).2.2) ++ lit " " ++
                    ratLib.f2 (ratLib.dec (formatTable (toLowerCase (lit "A4"))).1.1
                      (formatTable (toLowerCase (lit "A4"))).1.2) ++ lit "]"])) := by
  obtain ⟨d0, h⟩ := jsPDF_succeeds ratLib none none (some (.str (lit "A4"))) _ rfl (by decide)
  exact ⟨exactScale_ratLib, by decide, d0, h,
    named_format_box ratLib exactScale_ratLib none none (lit "A4") [] sampleClock d0
      (by decide) h⟩

theorem explicit_format_in_user_units_witness :
    toLowerCase ((none : Option JSString).getD (lit "p")) ∈ [lit "p", lit "portrait"] ∧
      ∃ d0, jsPDF stdLib none none (some (.arr [.num (num 100), .num (num 200)])) = .ok d0 ∧
        ∃ d d' s, run stdLib d0 sampleCalls = .ok d ∧
          output stdLib sampleClock d = .ok (d', s) ∧
          unitScale stdLib ((none : Option JSString).getD (lit "mm")) = .ok d0.k ∧
          d.k = d0.k ∧
          d0.pageWidth = .num (num 100) ∧ d0.pageHeight = .num (num 200) ∧
          d.pageWidth = .num (num 100) ∧ d.pageHeight = .num (num 200) ∧
          ObjectAt d'.offsets s 1
            (unlines [lit "1 0 obj", lit "<</Type /Pages", kidsLine d.page ++ lit "]",
              lit "/Count " ++ natStr d.page,
              lit "/MediaBox [0 0 " ++ stdLib.f2 (stdLib.mul (num 100) d0.k) ++ lit " " ++
                stdLib.f2 (stdLib.mul (num 200) d0.k) ++ lit "]"]) := by
  obtain ⟨d0, h⟩ := jsPDF_succeeds stdLib none none
    (some (.arr [.num (num 100), .num (num 200)])) _ rfl (by decide)
  exact ⟨by decide, d0, h,
    explicit_format_in_user_units stdLib none none (num 100) (num 200) sampleCalls sampleClock
      d0 (by decide) h⟩

/-- C13, as stated, fails for a new document in millimetres with the format
`[100, 200]`: the page width and height are stored as 100 and 200, and the
`/MediaBox` line of the first `output()` holds 283.46 and 566.93, the pair
multiplied by `72 / 25.4`. -/
theorem explicit_format_scaled :
    (firstOutput stdLib (some (lit "p")) (some (lit "mm"))
        (some (.arr [.num (num 100), .num (num 200)])) [] sampleClock).toOption.map
        (fun r => (r.1.pageWidth, r.1.pageHeight, r.1.offsets 1, (r.2.drop 192).take 29)) =
      some (.num (num 100), .num (num 200), some 145, lit "/MediaBox [0 0 283.46 566.93]") := by
  decide

end JsPDF
